import Mathlib

/-!
Verification of the per-node model-serving Worker (`xinference/core/worker.py`).

The Worker's mutable state (device maps, model table, launching guard,
sub-pool set) is embedded as a Lean structure of association lists that
mirror Python dict semantics (insertion order, update-in-place).  Each
operation of the source (`allocate_devices`, `allocate_devices_for_embedding`,
`allocate_devices_with_gpu_idx`, `release_devices`, `_create_subpool`,
`launch_builtin_model`, `terminate_model`, `recover_sub_pool`,
`launch_rank0_model`) is translated into an explicit state-passing function.
External collaborators (supervisor, downloader, virtualenv install, actor
creation, process pool) are represented by boolean outcome parameters
(`LaunchSchedule`) and oracles (`Ctx`), since only their success/failure and
the supervisor's "is vLLM backed" answer are observable to the Worker's
state machine.
-/

namespace Worker

/-! ### Association-list maps with Python-dict semantics -/

/-- Lookup the value bound to the first occurrence of key `k`. -/
def alookup {α β : Type} [DecidableEq α] : List (α × β) → α → Option β
  | [], _ => none
  | p :: m, k => if p.1 = k then some p.2 else alookup m k

/-- `m[k] = v`: replace in place if the key is present, else append. -/
def ainsert {α β : Type} [DecidableEq α] : List (α × β) → α → β → List (α × β)
  | [], k, v => [(k, v)]
  | p :: m, k, v => if p.1 = k then (k, v) :: m else p :: ainsert m k v

/-- `del m[k]` (no-op when absent; dict states never hold duplicate keys). -/
def aerase {α β : Type} [DecidableEq α] : List (α × β) → α → List (α × β)
  | [], _ => []
  | p :: m, k => if p.1 = k then m else p :: aerase m k

/-- `m.setdefault(k, v)`. -/
def asetdefault {α β : Type} [DecidableEq α] (m : List (α × β)) (k : α) (v : β) :
    List (α × β) :=
  match alookup m k with
  | some _ => m
  | none => m ++ [(k, v)]

/-- Key-set insert (`d[k] = ...` on a dict viewed as a key set). -/
def dinsert {α : Type} [DecidableEq α] (l : List α) (x : α) : List α :=
  if x ∈ l then l else l ++ [x]

/-- Remove the first occurrence of `x`. -/
def serase {α : Type} [DecidableEq α] : List α → α → List α
  | [], _ => []
  | y :: ys, x => if y = x then ys else y :: serase ys x

/-- `defaultdict(set)`-style add: `m[k].add(v)`. -/
def dAddToSet {β : Type} [DecidableEq β] (m : List (Nat × List β)) (k : Nat) (v : β) :
    List (Nat × List β) :=
  match alookup m k with
  | some s => ainsert m k (if v ∈ s then s else s ++ [v])
  | none => m ++ [(k, [v])]

/-- Remove every address in `as` from the pool list (ignoring missing ones,
as `remove_sub_pool` failures are swallowed). -/
def eraseAll (ps : List String) (as : List String) : List String :=
  as.foldl (fun acc a => serase acc a) ps

/-! ### Sorting (Python's `sorted` over GPU indices) -/

def insertSorted (x : Nat) : List Nat → List Nat
  | [] => [x]
  | y :: ys => if x ≤ y then x :: y :: ys else y :: insertSorted x ys

def sortNat (l : List Nat) : List Nat := l.foldr insertSorted []

def isSortedAsc : List Nat → Bool
  | [] => true
  | [_] => true
  | x :: y :: t => decide (x ≤ y) && isSortedAsc (y :: t)

/-! ### Data model -/

/-- `n_gpu : Optional[Union[int, str]]` payload. -/
inductive NGpu
  | int (n : Int)
  | str (s : String)
deriving Repr, DecidableEq

/-- `gpu_idx : Optional[Union[int, List[int]]]` payload. -/
inductive GpuIdxArg
  | one (i : Nat)
  | many (l : List Nat)
deriving Repr, DecidableEq

/-- The verbatim snapshot of `launch_builtin_model`'s parameters
(`launch_args = locals()`, captured before `gpu_idx` is coerced). -/
structure LaunchArgs where
  model_uid : String
  model_name : String := ""
  model_format : Option String := none
  model_type : String := "LLM"
  n_gpu : Option NGpu := some (NGpu.str "auto")
  n_worker : Nat := 1
  shard : Nat := 0
  peft_model_config : Option Unit := none
  gpu_idx : Option GpuIdxArg := none
  model_path : Option String := none
  enable_virtual_env : Option Bool := none
deriving Repr, DecidableEq

/-- The Worker's mutable state: the fields of `WorkerActor.__init__`.
`statusLog` is not a field here; status-guard pushes are returned by each
operation instead.  Model/spec tables are modelled by their key sets since
the actor and description values are opaque to the Worker's control flow. -/
structure WorkerState where
  totalGpuDevices : List Nat := []
  gpuToModelUid : List (Nat × String) := []
  gpuToEmbeddingModelUids : List (Nat × List String) := []
  userSpecifiedGpuToModelUids : List (Nat × List (String × String)) := []
  modelUidToModel : List String := []
  modelUidToModelSpec : List String := []
  modelUidToModelStatus : List (String × String) := []
  modelUidToAddr : List (String × String) := []
  modelUidToRecoverCount : List (String × Option Int) := []
  modelUidToLaunchArgs : List (String × LaunchArgs) := []
  launchingGuard : List String := []
  subPools : List String := []
deriving Repr, DecidableEq

/-- Ambient configuration and external oracles: host GPU count
(`gpu_count()`), platform, the supervisor's `is_model_vllm_backend` probe,
`MODEL_ACTOR_AUTO_RECOVER_LIMIT`, `XINFERENCE_ENABLE_VIRTUAL_ENV`,
connectivity of the status guard ref, and `os.path.exists`. -/
structure Ctx where
  hostGpuCount : Nat := 0
  darwin : Bool := false
  isVllm : String → Bool := fun _ => false
  autoRecoverLimit : Option Int := none
  enableVirtualEnvDefault : Bool := false
  statusGuardConnected : Bool := true
  pathExists : String → Bool := fun _ => true

/-- The error taxonomy as raised by the source (Python exception classes). -/
inductive Err
  | valueError (msg : String)
  | runtimeError (msg : String)
  | assertionError
  | external
  | cancelled
deriving Repr, DecidableEq

deriving instance DecidableEq for Except

/-! ### Device accountant (worker.py lines 434-613) -/

/-- Devices whose user-specified (pinned) occupants include a
non-embedding/non-rerank model (first loop of `allocate_devices`). -/
def userSpecAllocatedDevices (st : WorkerState) : List Nat :=
  (st.userSpecifiedGpuToModelUids.filter
    (fun p => p.2.any (fun mi => decide (mi.2 ≠ "embedding" ∧ mi.2 ≠ "rerank")))).map
    Prod.fst

/-- The devices `allocate_devices` considers free: not exclusively owned and
not pinned by a non-embedding/rerank model. -/
def freeExclusiveDevices (st : WorkerState) : List Nat :=
  st.totalGpuDevices.filter
    (fun d =>
      decide (alookup st.gpuToModelUid d = none ∧ d ∉ userSpecAllocatedDevices st))

/-- `WorkerActor.allocate_devices` (lines 485-513). The state is returned
unchanged on failure (the source raises before recording anything). -/
def allocate_devices (st : WorkerState) (model_uid : String) (n_gpu : Int) :
    Except Err (List Nat) × WorkerState :=
  let allocatedCard :=
    ((st.gpuToModelUid.map Prod.fst) ++ userSpecAllocatedDevices st).dedup.length
  if (st.totalGpuDevices.length : Int) - (allocatedCard : Int) < n_gpu then
    (.error (.runtimeError "No available slot found for the model"), st)
  else
    let devices := (freeExclusiveDevices st).take n_gpu.toNat
    (.ok (sortNat devices),
      { st with gpuToModelUid :=
          devices.foldl (fun m d => ainsert m d model_uid) st.gpuToModelUid })

/-- Whether a device currently hosts a vLLM-backed model, per the loop body
of `allocate_devices_for_embedding` (lines 445-459). -/
def embHasVllm (ctx : Ctx) (st : WorkerState) (d : Nat) : Bool :=
  let h1 := match alookup st.gpuToModelUid d with
    | some u => ctx.isVllm u
    | none => false
  if h1 then true
  else match alookup st.userSpecifiedGpuToModelUids d with
    | some infos => infos.any (fun mi => ctx.isVllm mi.1)
    | none => false

/-- Candidate test of `allocate_devices_for_embedding` (lines 439-461). -/
def embCandidate (ctx : Ctx) (st : WorkerState) (d : Nat) : Bool :=
  if (alookup st.gpuToModelUid d).isNone
      && (alookup st.userSpecifiedGpuToModelUids d).isNone then true
  else !(embHasVllm ctx st d)

def embCandidates (ctx : Ctx) (st : WorkerState) : List Nat :=
  st.totalGpuDevices.filter (embCandidate ctx st)

/-- Number of current tenants of a GPU: embedding + exclusive + pinned
(lines 471-478). -/
def tenantCount (st : WorkerState) (d : Nat) : Nat :=
  (match alookup st.gpuToEmbeddingModelUids d with
    | some s => s.length
    | none => 0)
  + (match alookup st.gpuToModelUid d with
    | some _ => 1
    | none => 0)
  + (match alookup st.userSpecifiedGpuToModelUids d with
    | some s => s.length
    | none => 0)

/-- The `device, min_cnt = -1, -1` fold of lines 469-480: first candidate
with strictly smaller tenant count wins. -/
def pickMinDevice (st : WorkerState) : List Nat → Option Nat
  | [] => none
  | d :: ds =>
    some (ds.foldl
      (fun best dev => if tenantCount st dev < tenantCount st best then dev else best) d)

/-- `WorkerActor.allocate_devices_for_embedding` (lines 434-483). -/
def allocate_devices_for_embedding (ctx : Ctx) (st : WorkerState) (model_uid : String) :
    Except Err Nat × WorkerState :=
  match pickMinDevice st (embCandidates ctx st) with
  | none => (.error (.runtimeError "No available slot found for the embedding model."), st)
  | some device =>
    (.ok device,
      { st with gpuToEmbeddingModelUids :=
          dAddToSet st.gpuToEmbeddingModelUids device model_uid })

/-- `WorkerActor.allocate_devices_with_gpu_idx` (lines 515-550). The state
is returned unchanged on failure: both the subset check and the per-index
vLLM conflict loop precede the recording loop. -/
def allocate_devices_with_gpu_idx (ctx : Ctx) (st : WorkerState)
    (model_uid model_type : String) (gpu_idx : List Nat) :
    Except Err (List Nat) × WorkerState :=
  if !(gpu_idx.all (fun i => decide (i ∈ st.totalGpuDevices))) then
    (.error (.valueError "cannot use the GPUs with these indexes"), st)
  else if gpu_idx.any (fun idx =>
      match alookup st.gpuToModelUid idx with
      | some rep => ctx.isVllm rep
      | none => false) then
    (.error (.runtimeError "GPU index has been occupied with a vLLM model"), st)
  else
    (.ok (sortNat gpu_idx),
      { st with userSpecifiedGpuToModelUids :=
          (gpu_idx.foldl (fun m i => dAddToSet m i (model_uid, model_type))
            st.userSpecifiedGpuToModelUids) })

/-- `WorkerActor.release_devices` (lines 552-575). -/
def release_devices (st : WorkerState) (model_uid : String) : WorkerState :=
  { st with
    gpuToModelUid := st.gpuToModelUid.filter (fun p => decide (p.2 ≠ model_uid)),
    gpuToEmbeddingModelUids := st.gpuToEmbeddingModelUids.map
      (fun p => (p.1, p.2.filter (fun u => decide (u ≠ model_uid)))),
    userSpecifiedGpuToModelUids := st.userSpecifiedGpuToModelUids.map
      (fun p => (p.1, p.2.filter (fun mi => decide (mi.1 ≠ model_uid)))) }

/-! ### Launch pipeline (worker.py lines 577-613, 889-1168) -/

/-- Modelled from the spec: `parse_replica_model_uid` (defined in
`core/utils.py`, outside this file) splits a replica UID into
`(origin_uid, replica_index)` at the last hyphen. -/
def parse_replica_model_uid (uid : String) : String × String :=
  let parts := uid.splitOn "-"
  if parts.length ≤ 1 then (uid, "")
  else (String.intercalate "-" parts.dropLast, parts.getLastD "")

/-- Substring test (`needle in hay` on Python strings). -/
def strContains (hay needle : String) : Bool := 1 < (hay.splitOn needle).length

/-- `WorkerActor._check_model_is_valid` (lines 615-620). -/
def check_model_is_valid (ctx : Ctx) (model_name : String)
    (model_format : Option String) : Except Err Unit :=
  if ctx.darwin = true ∧ model_format = some "pytorch"
      ∧ strContains model_name "baichuan" = true then
    .error (.valueError "model can't run on Darwin system")
  else .ok ()

/-- Scalar-to-list coercion of `gpu_idx` (lines 948-950). -/
def coerceGpuIdx : Option GpuIdxArg → Option (List Nat)
  | none => none
  | some (.one i) => some [i]
  | some (.many l) => some l

/-- The `n_gpu` validation of lines 952-959 (note: it is not guarded by
`gpu_idx is None`). -/
def prevalidateNGpu (ctx : Ctx) : Option NGpu → Except Err Unit
  | some (.int n) =>
    if n ≤ 0 ∨ (ctx.hostGpuCount : Int) < n then
      .error (.valueError "The parameter n_gpu must be greater than 0 and not greater than the number of GPUs")
    else .ok ()
  | some (.str s) =>
    if s = "auto" then .ok ()
    else .error (.valueError "Currently n_gpu only supports auto.")
  | none => .ok ()

/-- The PEFT validation of lines 961-969. -/
def prevalidatePeft (args : LaunchArgs) : Except Err Unit :=
  match args.peft_model_config with
  | none => .ok ()
  | some _ =>
    if args.model_type = "embedding" ∨ args.model_type = "rerank" then
      .error (.valueError "PEFT adaptors cannot be applied to embedding or rerank models")
    else if args.model_type = "LLM" ∧ args.model_format = some "ggufv2" then
      .error (.valueError "PEFT adaptors can only be applied to pytorch-like models")
    else .ok ()

/-- The pre-validation of `launch_builtin_model` (lines 942-980): coerce
`gpu_idx`, validate `n_gpu`, PEFT, `model_path`, uniqueness asserts and the
platform check. No Worker state is mutated. Returns the coerced `gpu_idx`. -/
def prevalidateModelPath (ctx : Ctx) (model_path : Option String) : Except Err Unit :=
  match model_path with
  | some p =>
    if ctx.pathExists p then .ok ()
    else .error (.valueError "model_path does not exist")
  | none => .ok ()

def prevalidate (ctx : Ctx) (st : WorkerState) (args : LaunchArgs) :
    Except Err (Option (List Nat)) :=
  let gpu_idx := coerceGpuIdx args.gpu_idx
  match prevalidateNGpu ctx args.n_gpu with
  | .error e => .error e
  | .ok _ =>
    match prevalidatePeft args with
    | .error e => .error e
    | .ok _ =>
      match prevalidateModelPath ctx args.model_path with
      | .error e => .error e
      | .ok _ =>
        if args.model_uid ∈ st.modelUidToModel then .error .assertionError
        else
          match check_model_is_valid ctx args.model_name args.model_format with
          | .error e => .error e
          | .ok _ =>
            if args.model_uid ∈ st.launchingGuard ∨ args.model_uid ∈ st.modelUidToModel then
              .error (.valueError "is running")
            else .ok gpu_idx

/-- Success/failure outcomes of the external calls made during one launch:
virtualenv creation, `append_sub_pool`, download+factory, venv install,
actor creation, extra pools, `model.load()`, plus the cancel flag as
observed at each `check_cancel` checkpoint and the model's
`need_create_pools()` answer. -/
structure LaunchSchedule where
  venvPrepOk : Bool := true
  appendMainPoolOk : Bool := true
  downloadOk : Bool := true
  cancelAfterDownload : Bool := false
  venvInstallOk : Bool := true
  cancelBeforeActor : Bool := false
  createActorOk : Bool := true
  needCreatePools : Bool := false
  extraPoolOks : List Bool := []
  cancelBeforeLoad : Bool := false
  loadOk : Bool := true
deriving Repr, DecidableEq

/-- The allocation choice of `_create_subpool` (lines 589-607):
embedding/rerank models get the shared single-GPU allocator, others the
exclusive allocator; `n_gpu="auto"` means one GPU when the host has any. -/
def allocForSubpool (ctx : Ctx) (st : WorkerState) (model_uid model_type : String)
    (cnt : Int) : Except Err (List Nat) × WorkerState :=
  if model_type = "embedding" ∨ model_type = "rerank" then
    match allocate_devices_for_embedding ctx st model_uid with
    | (.error e, st') => (.error e, st')
    | (.ok d, st') => (.ok [d], st')
  else allocate_devices st model_uid cnt

/-- The device-allocation part of `_create_subpool` (lines 589-607):
embedding/rerank models use the shared allocator, `gpu_idx` the pinned
allocator, plain models the exclusive allocator; `n_gpu = None` or
`"auto"` without GPUs allocates nothing. -/
def subpoolAlloc (ctx : Ctx) (st : WorkerState) (model_uid : String)
    (model_type : String) (n_gpu : Option NGpu) (gpu_idx : Option (List Nat)) :
    Except Err (List Nat) × WorkerState :=
  match gpu_idx with
  | none =>
    match n_gpu with
    | some (.int n) => allocForSubpool ctx st model_uid model_type n
    | some (.str s) =>
      if s = "auto" ∧ 0 < ctx.hostGpuCount then
        allocForSubpool ctx st model_uid model_type 1
      else (.ok [], st)
    | none => (.ok [], st)
  | some idxs => allocate_devices_with_gpu_idx ctx st model_uid model_type idxs

/-- `WorkerActor._create_subpool` (lines 577-613): allocate devices, then
`append_sub_pool`. A failing append leaves the allocation in place (the
only cleanup is in the caller's inner `try`, which starts after this). -/
def create_subpool (ctx : Ctx) (sched : LaunchSchedule) (newAddr : String)
    (st : WorkerState) (model_uid : String) (model_type : String)
    (n_gpu : Option NGpu) (gpu_idx : Option (List Nat)) :
    Except Err (String × List Nat) × WorkerState :=
  match subpoolAlloc ctx st model_uid model_type n_gpu gpu_idx with
  | (.error e, st') => (.error e, st')
  | (.ok devices, st') =>
    if sched.appendMainPoolOk then
      (.ok (newAddr, devices), { st' with subPools := st'.subPools ++ [newAddr] })
    else (.error .external, st')

/-- Whether the extra-pool `asyncio.gather` of `n` `append_sub_pool` tasks
succeeds as a whole: every one of its task flags is true (a missing flag
defaults to success). -/
def gatherOk (oks : List Bool) (n : Nat) : Bool := (oks.take n).all id

/-- The addresses whose `append_sub_pool` task succeeds.  `asyncio.gather`
propagates the first exception without cancelling sibling tasks, so every
task with a true flag creates its sub-pool even when the gather as a whole
fails. -/
def gatherCreated : List Bool → List String → List String
  | _, [] => []
  | oks, a :: as =>
    if oks.headD true then a :: gatherCreated oks.tail as
    else gatherCreated oks.tail as

/-- Outcome of the inner `try` of `launch_builtin_model` (lines 1010-1131):
a failure before the extra-pool gather, a partially failed gather (the
`extend` at line 1116 is skipped, so the extras created by the surviving
tasks never enter `all_subpool_addresses`), a failure after the extra pools
were recorded, or success. -/
inductive InnerOutcome
  | failNoExtras (e : Err)
  | failGather
  | failWithExtras (e : Err)
  | success (withExtras : Bool)
deriving Repr, DecidableEq

/-- Sequencing of the inner `try`: download/factory, `check_cancel`, venv
install, `check_cancel`, actor creation, the extra-pool gather over
`nExtras` tasks, `check_cancel`, `model.load()` (lines 1027-1131). -/
def innerOutcome (sched : LaunchSchedule) (venvMgr : Bool) (extrasCond : Bool)
    (nExtras : Nat) : InnerOutcome :=
  if !sched.downloadOk then .failNoExtras .external
  else if sched.cancelAfterDownload then .failNoExtras .cancelled
  else if venvMgr && !sched.venvInstallOk then .failNoExtras .external
  else if sched.cancelBeforeActor then .failNoExtras .cancelled
  else if !sched.createActorOk then .failNoExtras .external
  else if extrasCond && !gatherOk sched.extraPoolOks nExtras then .failGather
  else if sched.cancelBeforeLoad then
    (if extrasCond then .failWithExtras .cancelled else .failNoExtras .cancelled)
  else if !sched.loadOk then
    (if extrasCond then .failWithExtras .external else .failNoExtras .external)
  else .success extrasCond

/-- The `except` block of lines 1132-1140: release devices and remove every
recorded sub-pool address (`KeyError` ignored). -/
def launchFailureCleanup (st : WorkerState) (model_uid : String)
    (addrs : List String) : WorkerState :=
  let st1 := release_devices st model_uid
  { st1 with subPools := eraseAll st1.subPools addrs }

/-- The commit point of lines 1141-1150. -/
def commitLaunch (ctx : Ctx) (st : WorkerState) (args : LaunchArgs) (addr : String) :
    WorkerState :=
  { st with
    modelUidToModel := dinsert st.modelUidToModel args.model_uid,
    modelUidToModelSpec := dinsert st.modelUidToModelSpec args.model_uid,
    modelUidToModelStatus := ainsert st.modelUidToModelStatus args.model_uid "",
    modelUidToAddr := ainsert st.modelUidToAddr args.model_uid addr,
    modelUidToRecoverCount :=
      asetdefault st.modelUidToRecoverCount args.model_uid ctx.autoRecoverLimit,
    modelUidToLaunchArgs := ainsert st.modelUidToLaunchArgs args.model_uid args }

/-- The `try` body of `launch_builtin_model` after the guard entry is
inserted (lines 985-1150): virtualenv prep, `_create_subpool`, the inner
`try` with its failure cleanup, and the commit.  `st` already holds the
guard entry; the body never removes it (the enclosing `finally` does). -/
def launchBody (ctx : Ctx) (sched : LaunchSchedule) (newAddr : String)
    (extraAddrs : List String) (args : LaunchArgs) (gpu_idx : Option (List Nat))
    (st : WorkerState) :
    Except Err String × WorkerState × List (String × String) :=
  if !sched.venvPrepOk then (.error .external, st, [])
  else
    let venvMgr := args.enable_virtual_env.getD ctx.enableVirtualEnvDefault
    match create_subpool ctx sched newAddr st args.model_uid args.model_type
        args.n_gpu gpu_idx with
    | (.error e, st2) => (.error e, st2, [])
    | (.ok (addr, devices), st2) =>
      let extrasCond :=
        sched.needCreatePools && (decide (1 < devices.length) || decide (1 < args.n_worker))
      let extras := extraAddrs.take devices.length
      match innerOutcome sched venvMgr extrasCond extras.length with
      | .failNoExtras e =>
        (.error e, launchFailureCleanup st2 args.model_uid [addr], [])
      | .failGather =>
        let created := gatherCreated sched.extraPoolOks extras
        let st3 := { st2 with subPools := st2.subPools ++ created }
        (.error .external, launchFailureCleanup st3 args.model_uid [addr], [])
      | .failWithExtras e =>
        let st3 := { st2 with subPools := st2.subPools ++ extras }
        (.error e, launchFailureCleanup st3 args.model_uid (addr :: extras), [])
      | .success withExtras =>
        let st3 := if withExtras then { st2 with subPools := st2.subPools ++ extras } else st2
        (.ok addr, commitLaunch ctx st3 args addr,
          [((parse_replica_model_uid args.model_uid).1, "READY")])

/-- `WorkerActor.launch_builtin_model` (lines 889-1168). `newAddr` is the
address returned by the primary `append_sub_pool`, `extraAddrs` supplies
addresses for the per-device extra pools. Returns the result, the final
state, and the status-guard updates pushed.  The structure mirrors the
source: pre-validation, guard insertion, the `try` body, and the `finally`
that deletes the guard entry on every exit path. -/
def launch_builtin_model (ctx : Ctx) (sched : LaunchSchedule) (newAddr : String)
    (extraAddrs : List String) (args : LaunchArgs) (st : WorkerState) :
    Except Err String × WorkerState × List (String × String) :=
  match prevalidate ctx st args with
  | .error e => (.error e, st, [])
  | .ok gpu_idx =>
    let uid := args.model_uid
    let stG := { st with launchingGuard := dinsert st.launchingGuard uid }
    let r := launchBody ctx sched newAddr extraAddrs args gpu_idx stG
    (r.1, { r.2.1 with launchingGuard := serase r.2.1.launchingGuard uid }, r.2.2)

/-! ### Terminate, recover, rank-0 (worker.py lines 179-232, 1209-1301, 1479-1531) -/

/-- Origin-UID normalization of `terminate_model` (lines 1213-1217). -/
def terminate_origin_uid (model_uid : String) : String :=
  if model_uid.endsWith "-rank0" then model_uid.dropRight 6
  else (parse_replica_model_uid model_uid).1

/-- `WorkerActor.terminate_model` (lines 1209-1301). `pool_addresses` is the
answer of the external `model_ref.get_pool_addresses()` call (None when it
fails or when no model ref exists). -/
def terminate_model (ctx : Ctx) (st : WorkerState) (model_uid : String)
    (is_model_die : Bool) (pool_addresses : Option (List String)) :
    Except Err Unit × WorkerState × List (String × String) :=
  if model_uid ∈ st.launchingGuard then
    (.error (.valueError "is launching"), st, [])
  else
    let origin := terminate_origin_uid model_uid
    let log1 : List (String × String) :=
      if ctx.statusGuardConnected then [(origin, "TERMINATING")] else []
    let pool_addrs : Option (List String) :=
      if model_uid ∈ st.modelUidToModel then pool_addresses else none
    let st1 :=
      match alookup st.modelUidToAddr model_uid with
      | none => st
      | some a => { st with subPools := eraseAll st.subPools (a :: pool_addrs.getD []) }
    let st2 := { st1 with
      modelUidToModel := serase st1.modelUidToModel model_uid,
      modelUidToModelSpec := serase st1.modelUidToModelSpec model_uid }
    let st3 := release_devices st2 model_uid
    let st4 := { st3 with
      modelUidToAddr := aerase st3.modelUidToAddr model_uid,
      modelUidToRecoverCount := aerase st3.modelUidToRecoverCount model_uid,
      modelUidToLaunchArgs := aerase st3.modelUidToLaunchArgs model_uid }
    if is_model_die then
      (.ok (), st4, log1 ++ [(origin, "ERROR")])
    else
      (.ok (),
        { st4 with modelUidToModelStatus := aerase st4.modelUidToModelStatus model_uid },
        log1 ++ [(origin, "TERMINATED")])

/-- `WorkerActor.recover_model` (lines 1512-1531): re-invoke the launch with
the stored args; the xavier collective-manager calls are external. -/
def recover_model (ctx : Ctx) (sched : LaunchSchedule) (newAddr : String)
    (extraAddrs : List String) (st : WorkerState) (launch_args : LaunchArgs) :
    Except Err String × WorkerState × List (String × String) :=
  launch_builtin_model ctx sched newAddr extraAddrs launch_args st

/-- `WorkerActor.recover_sub_pool` (lines 179-232): the death callback.
Returns the state, whether a re-launch was attempted, and the status
pushes. -/
def recover_sub_pool (ctx : Ctx) (sched : LaunchSchedule) (newAddr : String)
    (extraAddrs : List String) (st : WorkerState) (address : String) :
    WorkerState × Bool × List (String × String) :=
  let st0 := { st with subPools := serase st.subPools address }
  match st0.modelUidToAddr.find? (fun p => decide (p.2 = address)) with
  | none => (st0, false, [])
  | some p =>
    let model_uid := p.1
    match alookup st0.modelUidToLaunchArgs model_uid with
    | none => (st0, false, [])
    | some launch_args =>
      let recover_count := (alookup st0.modelUidToRecoverCount model_uid).join
      let t := terminate_model ctx st0 model_uid true none
      let st1 := t.2.1
      let log1 := t.2.2
      match recover_count with
      | some n =>
        if 0 < n then
          let st2 := { st1 with modelUidToRecoverCount :=
              (ainsert st1.modelUidToRecoverCount model_uid (some (n - 1))) }
          let r := recover_model ctx sched newAddr extraAddrs st2 launch_args
          (r.2.1, true, log1 ++ r.2.2)
        else (st1, false, log1)
      | none =>
        let r := recover_model ctx sched newAddr extraAddrs st1 launch_args
        (r.2.1, true, log1 ++ r.2.2)

/-- `WorkerActor.launch_rank0_model` (lines 1479-1510). -/
def launch_rank0_model (sched : LaunchSchedule) (newAddr : String) (storePort : Nat)
    (st : WorkerState) (rep_model_uid : String) :
    Except Err (String × Nat) × WorkerState :=
  if !sched.appendMainPoolOk then (.error .external, st)
  else
    let st1 := { st with subPools := st.subPools ++ [newAddr] }
    let st2 := { st1 with launchingGuard := dinsert st1.launchingGuard rep_model_uid }
    if !sched.createActorOk then
      let st3 := { st2 with subPools := serase st2.subPools newAddr }
      (.error .external, { st3 with launchingGuard := serase st3.launchingGuard rep_model_uid })
    else
      let st3 := { st2 with
        modelUidToModel := dinsert st2.modelUidToModel rep_model_uid,
        modelUidToAddr := ainsert st2.modelUidToAddr rep_model_uid newAddr }
      (.ok (newAddr, storePort),
        { st3 with launchingGuard := serase st3.launchingGuard rep_model_uid })

/-- `WorkerActor.list_models` (lines 1318-1320): the model-spec table. -/
def list_models (st : WorkerState) : List String := st.modelUidToModelSpec

/-- Equality of all fields except the three device maps and `subPools`. -/
def OtherFieldsEq (s t : WorkerState) : Prop :=
  s.totalGpuDevices = t.totalGpuDevices ∧
  s.modelUidToModel = t.modelUidToModel ∧
  s.modelUidToModelSpec = t.modelUidToModelSpec ∧
  s.modelUidToModelStatus = t.modelUidToModelStatus ∧
  s.modelUidToAddr = t.modelUidToAddr ∧
  s.modelUidToRecoverCount = t.modelUidToRecoverCount ∧
  s.modelUidToLaunchArgs = t.modelUidToLaunchArgs ∧
  s.launchingGuard = t.launchingGuard

/-- Equality of the three device maps. -/
def DeviceMapsEq (s t : WorkerState) : Prop :=
  s.gpuToModelUid = t.gpuToModelUid ∧
  s.gpuToEmbeddingModelUids = t.gpuToEmbeddingModelUids ∧
  s.userSpecifiedGpuToModelUids = t.userSpecifiedGpuToModelUids

/-- No device map of `s` references `uid`. -/
def DevClear (s : WorkerState) (uid : String) : Prop :=
  (∀ p ∈ s.gpuToModelUid, p.2 ≠ uid) ∧
  (∀ p ∈ s.gpuToEmbeddingModelUids, uid ∉ p.2) ∧
  (∀ p ∈ s.userSpecifiedGpuToModelUids, ∀ mi ∈ p.2, mi.1 ≠ uid)

/-- A uid is never simultaneously in the Launching Guard and the Model
Table. -/
def GuardTableExclusive (st : WorkerState) : Prop :=
  ∀ uid, uid ∈ st.launchingGuard → uid ∉ st.modelUidToModel

/-- A CPU-only launch request (no GPUs involved) for `uid`. -/
def cpuArgs (uid : String) : LaunchArgs := { model_uid := uid, n_gpu := none }

/-- The committed state of a CPU model `uid` at sub-pool address "a" with
recovery counter `cnt`. -/
def committedCpu (uid : String) (cnt : Option Int) : WorkerState :=
  { modelUidToModel := [uid], modelUidToModelSpec := [uid],
    modelUidToModelStatus := [(uid, "")],
    modelUidToAddr := [(uid, "a")], modelUidToRecoverCount := [(uid, cnt)],
    modelUidToLaunchArgs := [(uid, cpuArgs uid)], subPools := ["a"] }

/-- The state left after a death that exhausted the recovery counter. -/
def deadCpu : WorkerState := { modelUidToModelStatus := [("r", "")] }

/-- Simulation of `k` successive sub-pool deaths of the model at address
"a": after each death the death callback runs; the second component counts
how many deaths triggered a re-launch attempt. -/
def deathsSim (uid : String) : Nat → WorkerState → WorkerState × Nat
  | 0, st => (st, 0)
  | Nat.succ k, st =>
    match alookup st.modelUidToAddr uid with
    | none => (st, 0)
    | some a =>
      let r := recover_sub_pool {} {} "a" [] st a
      let rest := deathsSim uid k r.1
      (rest.1, (if r.2.1 then 1 else 0) + rest.2)

/-! ### Lemmas on the map and list helpers -/

section MapLemmas

variable {α β : Type} [DecidableEq α]

@[simp] theorem alookup_nil (k : α) : alookup ([] : List (α × β)) k = none := rfl

theorem alookup_cons (p : α × β) (m : List (α × β)) (k : α) :
    alookup (p :: m) k = if p.1 = k then some p.2 else alookup m k := rfl

theorem alookup_eq_none_iff (m : List (α × β)) (k : α) :
    alookup m k = none ↔ k ∉ m.map Prod.fst := by
  induction m with
  | nil => simp
  | cons p m ih =>
    by_cases h : p.1 = k
    · simp [alookup_cons, h]
    · simp only [alookup_cons, if_neg h, List.map_cons, List.mem_cons, not_or, ih]
      constructor
      · intro hk
        exact ⟨fun he => h he.symm, hk⟩
      · intro hk
        exact hk.2

theorem alookup_ainsert_self (m : List (α × β)) (k : α) (v : β) :
    alookup (ainsert m k v) k = some v := by
  induction m with
  | nil => simp [ainsert, alookup_cons]
  | cons p m ih =>
    by_cases h : p.1 = k <;> simp [ainsert, h, alookup_cons, ih]

theorem alookup_ainsert_ne (m : List (α × β)) (k k' : α) (v : β) (h : k ≠ k') :
    alookup (ainsert m k v) k' = alookup m k' := by
  induction m with
  | nil => simp [ainsert, alookup_cons, h]
  | cons p m ih =>
    by_cases hp : p.1 = k
    · simp [ainsert, hp, alookup_cons, h]
    · simp [ainsert, hp, alookup_cons, ih]

theorem alookup_append_left (m m' : List (α × β)) (k : α) (v : β)
    (h : alookup m k = some v) : alookup (m ++ m') k = some v := by
  induction m with
  | nil => simp [alookup_cons] at h
  | cons p m ih =>
    by_cases hp : p.1 = k <;> simp_all [alookup_cons]

theorem alookup_asetdefault_of_some (m : List (α × β)) (k k' : α) (v v' : β)
    (h : alookup m k' = some v') : alookup (asetdefault m k v) k' = some v' := by
  unfold asetdefault
  cases hm : alookup m k with
  | some w => simpa using h
  | none => exact alookup_append_left _ _ _ _ h

theorem alookup_aerase_of_ne (m : List (α × β)) (k k' : α) (h : k ≠ k') :
    alookup (aerase m k) k' = alookup m k' := by
  induction m with
  | nil => simp [aerase]
  | cons p m ih =>
    by_cases hp : p.1 = k
    · simp [aerase, hp, alookup_cons, h]
    · simp [aerase, hp, alookup_cons, ih]

theorem alookup_aerase_self (m : List (α × β)) (k : α)
    (h : (m.map Prod.fst).Nodup) : alookup (aerase m k) k = none := by
  induction m with
  | nil => simp [aerase]
  | cons p m ih =>
    simp only [List.map_cons, List.nodup_cons] at h
    by_cases hp : p.1 = k
    · simp only [aerase, if_pos hp]
      rw [alookup_eq_none_iff]
      intro hk
      exact h.1 (hp ▸ hk)
    · simp [aerase, hp, alookup_cons, ih h.2]

theorem alookup_ainsert_aerase (m : List (α × β)) (k : α) (v : β) :
    alookup (ainsert (aerase m k) k v) k = some v :=
  alookup_ainsert_self _ _ _

theorem mem_serase_sub {l : List α} {x y : α} (h : x ∈ serase l y) : x ∈ l := by
  induction l with
  | nil => simp [serase] at h
  | cons z l ih =>
    by_cases hz : z = y
    · simp only [serase, if_pos hz] at h
      exact List.mem_cons_of_mem _ h
    · simp only [serase, if_neg hz, List.mem_cons] at h
      rcases h with h | h
      · exact h ▸ List.mem_cons_self _ _
      · exact List.mem_cons_of_mem _ (ih h)

theorem serase_of_not_mem {l : List α} {x : α} (h : x ∉ l) : serase l x = l := by
  induction l with
  | nil => rfl
  | cons z l ih =>
    simp only [List.mem_cons, not_or] at h
    simp [serase, Ne.symm h.1, ih h.2]

theorem serase_append_of_not_mem {l₁ : List α} (l₂ : List α) {x : α} (h : x ∉ l₁) :
    serase (l₁ ++ l₂) x = l₁ ++ serase l₂ x := by
  induction l₁ with
  | nil => rfl
  | cons z l ih =>
    simp only [List.mem_cons, not_or] at h
    simp [serase, Ne.symm h.1, ih h.2]

@[simp] theorem serase_cons_self (l : List α) (x : α) : serase (x :: l) x = l := by
  simp [serase]

theorem not_mem_serase_self {l : List α} {x : α} (h : l.Nodup) : x ∉ serase l x := by
  induction l with
  | nil => simp [serase]
  | cons z l ih =>
    rcases List.nodup_cons.mp h with ⟨hz, hl⟩
    by_cases hzx : z = x
    · subst hzx; simpa using hz
    · simp only [serase, if_neg hzx, List.mem_cons, not_or]
      exact ⟨fun hx => hzx hx.symm, ih hl⟩

theorem mem_dinsert_self (l : List α) (x : α) : x ∈ dinsert l x := by
  by_cases h : x ∈ l <;> simp [dinsert, h]

theorem mem_dinsert_of_mem {l : List α} {x y : α} (h : y ∈ l) : y ∈ dinsert l x := by
  by_cases hx : x ∈ l <;> simp [dinsert, hx, h]

theorem mem_dinsert {l : List α} {x y : α} :
    y ∈ dinsert l x ↔ y ∈ l ∨ y = x := by
  by_cases hx : x ∈ l
  · simp only [dinsert, if_pos hx]
    constructor
    · exact Or.inl
    · rintro (h | rfl) <;> [exact h; exact hx]
  · simp [dinsert, hx]

theorem serase_dinsert_of_not_mem {l : List α} {x : α} (h : x ∉ l) :
    serase (dinsert l x) x = l := by
  rw [dinsert, if_neg h, serase_append_of_not_mem _ h]
  simp

theorem eraseAll_append {ps as : List String} (hnd : as.Nodup)
    (hfresh : ∀ a ∈ as, a ∉ ps) : eraseAll (ps ++ as) as = ps := by
  induction as generalizing ps with
  | nil => simp [eraseAll]
  | cons a as ih =>
    rcases List.nodup_cons.mp hnd with ⟨ha, hnd'⟩
    have h1 : serase (ps ++ a :: as) a = ps ++ as := by
      rw [serase_append_of_not_mem _ (hfresh a (List.mem_cons_self _ _))]
      simp
    show eraseAll (serase (ps ++ a :: as) a) as = ps
    rw [h1]
    exact ih hnd' (fun b hb hbp => hfresh b (List.mem_cons_of_mem _ hb) hbp)

theorem eraseAll_singleton {ps : List String} {a : String} (h : a ∉ ps) :
    eraseAll (ps ++ [a]) [a] = ps := by
  have := @eraseAll_append ps [a] (by simp) (by simpa using h)
  simpa using this

theorem alookup_append_of_none {m m' : List (α × β)} {k : α}
    (h : alookup m k = none) : alookup (m ++ m') k = alookup m' k := by
  induction m with
  | nil => rfl
  | cons p m ih =>
    rw [alookup_cons] at h
    by_cases hp : p.1 = k
    · simp [hp] at h
    · rw [List.cons_append, alookup_cons, if_neg hp]
      exact ih (by simpa [hp] using h)

theorem alookup_foldl_ainsert_not_mem {m0 : List (α × β)} {l : List α} {v : β}
    {k : α} (h : k ∉ l) :
    alookup (l.foldl (fun m d => ainsert m d v) m0) k = alookup m0 k := by
  induction l generalizing m0 with
  | nil => rfl
  | cons d l ih =>
    simp only [List.mem_cons, not_or] at h
    rw [List.foldl_cons, ih h.2, alookup_ainsert_ne _ _ _ _ (fun he => h.1 he.symm)]

theorem alookup_foldl_ainsert_mem {m0 : List (α × β)} {l : List α} {v : β}
    {k : α} (hmem : k ∈ l) (hnd : l.Nodup) :
    alookup (l.foldl (fun m d => ainsert m d v) m0) k = some v := by
  induction l generalizing m0 with
  | nil => cases hmem
  | cons d l ih =>
    rcases List.nodup_cons.mp hnd with ⟨hd, hnd'⟩
    rcases List.mem_cons.mp hmem with rfl | hk
    · rw [List.foldl_cons, alookup_foldl_ainsert_not_mem hd, alookup_ainsert_self]
    · rw [List.foldl_cons]
      exact ih hk hnd'

end MapLemmas

section SetMapLemmas

variable {β : Type} [DecidableEq β]

theorem alookup_dAddToSet_self (m : List (Nat × List β)) (k : Nat) (v : β) :
    ∃ s, alookup (dAddToSet m k v) k = some s ∧ v ∈ s := by
  unfold dAddToSet
  cases hm : alookup m k with
  | some s =>
    refine ⟨if v ∈ s then s else s ++ [v], alookup_ainsert_self _ _ _, ?_⟩
    by_cases hv : v ∈ s <;> simp [hv]
  | none =>
    refine ⟨[v], ?_, by simp⟩
    rw [alookup_append_of_none hm, alookup_cons]
    simp

theorem alookup_dAddToSet_ne (m : List (Nat × List β)) (k k' : Nat) (v : β)
    (h : k ≠ k') : alookup (dAddToSet m k v) k' = alookup m k' := by
  unfold dAddToSet
  cases hm : alookup m k with
  | some s => exact alookup_ainsert_ne _ _ _ _ h
  | none =>
    cases hm' : alookup m k' with
    | some w => exact alookup_append_left _ _ _ _ hm'
    | none =>
      rw [alookup_append_of_none hm', alookup_cons]
      simp [h]

theorem mem_dAddToSet_preserve {m : List (Nat × List β)} {k k' : Nat}
    {v w : β} {s : List β} (h : alookup m k' = some s) (hw : w ∈ s) :
    ∃ s', alookup (dAddToSet m k v) k' = some s' ∧ w ∈ s' := by
  by_cases hk : k = k'
  · subst hk
    unfold dAddToSet
    rw [h]
    refine ⟨_, alookup_ainsert_self _ _ _, ?_⟩
    by_cases hv : v ∈ s <;> simp [hv, hw]
  · refine ⟨s, ?_, hw⟩
    rw [alookup_dAddToSet_ne _ _ _ _ hk]
    exact h

theorem pinned_foldl_preserve {idxs : List Nat} {pr : β} {i : Nat} {w : β} :
    ∀ {m0 : List (Nat × List β)} {s : List β}, alookup m0 i = some s → w ∈ s →
      ∃ s', alookup (idxs.foldl (fun m j => dAddToSet m j pr) m0) i = some s' ∧ w ∈ s' := by
  induction idxs with
  | nil => exact fun h hw => ⟨_, h, hw⟩
  | cons j idxs ih =>
    intro m0 s h hw
    obtain ⟨s1, h1, hw1⟩ := mem_dAddToSet_preserve (k := j) (v := pr) h hw
    exact ih h1 hw1

theorem pinned_foldl_mem {idxs : List Nat} {pr : β} {i : Nat}
    (h : i ∈ idxs) :
    ∀ m0 : List (Nat × List β),
      ∃ s, alookup (idxs.foldl (fun m j => dAddToSet m j pr) m0) i = some s ∧ pr ∈ s := by
  induction idxs with
  | nil => cases h
  | cons j idxs ih =>
    intro m0
    rw [List.foldl_cons]
    rcases List.mem_cons.mp h with rfl | hi
    · obtain ⟨s, hs, hmem⟩ := alookup_dAddToSet_self m0 i pr
      exact pinned_foldl_preserve hs hmem
    · exact ih hi _

end SetMapLemmas

section PickMinLemmas

theorem pickMin_foldl_mem (st : WorkerState) (ds : List Nat) : ∀ b : Nat,
    (ds.foldl
      (fun best dev => if tenantCount st dev < tenantCount st best then dev else best) b)
      ∈ b :: ds := by
  induction ds with
  | nil => intro b; simp
  | cons d ds ih =>
    intro b
    rw [List.foldl_cons]
    by_cases h : tenantCount st d < tenantCount st b
    · rw [if_pos h]
      rcases List.mem_cons.mp (ih d) with h1 | h1
      · rw [h1]; simp
      · simp [h1]
    · rw [if_neg h]
      rcases List.mem_cons.mp (ih b) with h1 | h1
      · rw [h1]; simp
      · simp [h1]

theorem pickMin_foldl_le (st : WorkerState) (ds : List Nat) : ∀ b : Nat,
    ∀ c ∈ b :: ds,
      tenantCount st
        (ds.foldl
          (fun best dev => if tenantCount st dev < tenantCount st best then dev else best) b)
        ≤ tenantCount st c := by
  induction ds with
  | nil =>
    intro b c hc
    rcases List.mem_cons.mp hc with rfl | h
    · exact le_refl _
    · cases h
  | cons d ds ih =>
    intro b c hc
    rw [List.foldl_cons]
    by_cases h : tenantCount st d < tenantCount st b
    · rw [if_pos h]
      rcases List.mem_cons.mp hc with rfl | hc2
      · exact le_trans (ih d d (List.mem_cons_self _ _)) (Nat.le_of_lt h)
      · exact ih d c hc2
    · rw [if_neg h]
      rcases List.mem_cons.mp hc with rfl | hc2
      · exact ih c c (List.mem_cons_self _ _)
      · rcases List.mem_cons.mp hc2 with rfl | hc3
        · exact le_trans (ih b b (List.mem_cons_self _ _)) (Nat.le_of_not_lt h)
        · exact ih b c (List.mem_cons_of_mem _ hc3)

end PickMinLemmas

section CountLemmas

theorem length_filter_split {γ : Type} (l : List γ) (p : γ → Bool) :
    (l.filter p).length + (l.filter (fun a => !p a)).length = l.length := by
  induction l with
  | nil => rfl
  | cons x l ih =>
    by_cases h : p x <;> simp [List.filter_cons, h] <;> omega

theorem length_filter_mem_eq_dedup {l A : List Nat} (hnd : l.Nodup)
    (hsub : ∀ a ∈ A, a ∈ l) :
    (l.filter (fun d => decide (d ∈ A))).length = A.dedup.length := by
  have h1 : (l.filter (fun d => decide (d ∈ A))).Nodup := hnd.filter _
  have h2 : A.dedup.Nodup := A.nodup_dedup
  have h3 : (l.filter (fun d => decide (d ∈ A))).toFinset = A.dedup.toFinset := by
    ext x
    simp only [List.mem_toFinset, List.mem_filter, List.mem_dedup, decide_eq_true_eq]
    constructor
    · exact fun h => h.2
    · exact fun h => ⟨hsub x h, h⟩
  rw [← List.toFinset_card_of_nodup h1, ← List.toFinset_card_of_nodup h2, h3]

theorem alloc_count_eq (st : WorkerState)
    (hnd : st.totalGpuDevices.Nodup)
    (hsub1 : ∀ d ∈ st.gpuToModelUid.map Prod.fst, d ∈ st.totalGpuDevices)
    (hsub2 : ∀ d ∈ userSpecAllocatedDevices st, d ∈ st.totalGpuDevices) :
    ((st.gpuToModelUid.map Prod.fst) ++ userSpecAllocatedDevices st).dedup.length
      + (freeExclusiveDevices st).length = st.totalGpuDevices.length := by
  set A := (st.gpuToModelUid.map Prod.fst) ++ userSpecAllocatedDevices st with hA
  have hsub : ∀ a ∈ A, a ∈ st.totalGpuDevices := by
    intro a ha
    rcases List.mem_append.mp ha with h | h
    · exact hsub1 a h
    · exact hsub2 a h
  have hfree : freeExclusiveDevices st
      = st.totalGpuDevices.filter (fun d => !(decide (d ∈ A))) := by
    unfold freeExclusiveDevices
    apply List.filter_congr
    intro d _
    rw [← decide_not]
    refine (decide_eq_decide.mpr ?_)
    simp [alookup_eq_none_iff, hA, List.mem_append, not_or]
  rw [hfree, ← length_filter_mem_eq_dedup hnd hsub]
  have := length_filter_split st.totalGpuDevices (fun d => decide (d ∈ A))
  omega

end CountLemmas

/-! ### Sortedness of `sortNat` -/

theorem isSortedAsc_cons_cons (x y : Nat) (l : List Nat) :
    isSortedAsc (x :: y :: l) = (decide (x ≤ y) && isSortedAsc (y :: l)) := rfl

theorem isSortedAsc_insertSorted (x : Nat) (l : List Nat)
    (h : isSortedAsc l = true) : isSortedAsc (insertSorted x l) = true := by
  induction l with
  | nil => rfl
  | cons y l ih =>
    by_cases hxy : x ≤ y
    · rw [insertSorted, if_pos hxy, isSortedAsc_cons_cons]
      simp [hxy, h]
    · have hyx : y ≤ x := Nat.le_of_lt (Nat.lt_of_not_le hxy)
      rw [insertSorted, if_neg hxy]
      cases l with
      | nil =>
        rw [show insertSorted x [] = [x] from rfl, isSortedAsc_cons_cons]
        simp [hyx, isSortedAsc]
      | cons z l =>
        rw [isSortedAsc_cons_cons] at h
        simp only [Bool.and_eq_true] at h
        obtain ⟨h1, h2⟩ := h
        have ht := ih h2
        by_cases hxz : x ≤ z
        · rw [insertSorted, if_pos hxz] at ht ⊢
          rw [isSortedAsc_cons_cons]
          simp [hyx, ht]
        · rw [insertSorted, if_neg hxz] at ht ⊢
          rw [isSortedAsc_cons_cons]
          simp [h1, ht]

theorem isSortedAsc_sortNat (l : List Nat) : isSortedAsc (sortNat l) = true := by
  induction l with
  | nil => rfl
  | cons x l ih => exact isSortedAsc_insertSorted x _ ih

/-- The per-index vLLM occupancy check of `allocate_devices_with_gpu_idx`. -/
theorem vllmCheck_eq_true (ctx : Ctx) (st : WorkerState) (idx : Nat) :
    ((match alookup st.gpuToModelUid idx with
      | some rep => ctx.isVllm rep
      | none => false) = true) ↔
    ∃ rep, alookup st.gpuToModelUid idx = some rep ∧ ctx.isVllm rep = true := by
  cases h : alookup st.gpuToModelUid idx <;> simp [h]

/-! ### Claim theorems: device accountant -/

/-- C4: the exclusive allocator is deterministic and first-fit in
`total_gpus` order: with `total_gpus = [0,1,2,3]`, `AllocateExclusive(A,2)`
returns `[0,1]`, then `AllocateExclusive(B,1)` returns `[2]`; after
`Release(A)`, `AllocateExclusive(C,2)` returns `[0,1]` again.  In general it
fails with `NoSlot` exactly when fewer than `n` free GPUs exist (the state
unchanged), records each chosen GPU as exclusively owned by the uid, and
returns the chosen indices sorted ascending. -/
theorem C4_allocate_exclusive :
    (allocate_devices { totalGpuDevices := [0,1,2,3] } "A" 2 =
      (.ok [0,1],
        { totalGpuDevices := [0,1,2,3], gpuToModelUid := [(0,"A"),(1,"A")] }) ∧
     allocate_devices
        { totalGpuDevices := [0,1,2,3], gpuToModelUid := [(0,"A"),(1,"A")] } "B" 1 =
      (.ok [2],
        { totalGpuDevices := [0,1,2,3], gpuToModelUid := [(0,"A"),(1,"A"),(2,"B")] }) ∧
     release_devices
        { totalGpuDevices := [0,1,2,3], gpuToModelUid := [(0,"A"),(1,"A"),(2,"B")] } "A" =
      { totalGpuDevices := [0,1,2,3], gpuToModelUid := [(2,"B")] } ∧
     allocate_devices
        { totalGpuDevices := [0,1,2,3], gpuToModelUid := [(2,"B")] } "C" 2 =
      (.ok [0,1],
        { totalGpuDevices := [0,1,2,3], gpuToModelUid := [(2,"B"),(0,"C"),(1,"C")] })) ∧
    (∀ st uid n,
      st.totalGpuDevices.Nodup →
      (∀ d ∈ st.gpuToModelUid.map Prod.fst, d ∈ st.totalGpuDevices) →
      (∀ d ∈ userSpecAllocatedDevices st, d ∈ st.totalGpuDevices) →
      ((((freeExclusiveDevices st).length : Int) < n →
        allocate_devices st uid n =
          (.error (.runtimeError "No available slot found for the model"), st)) ∧
       (n ≤ ((freeExclusiveDevices st).length : Int) →
        allocate_devices st uid n =
          (.ok (sortNat ((freeExclusiveDevices st).take n.toNat)),
           { st with gpuToModelUid :=
              (((freeExclusiveDevices st).take n.toNat).foldl
                (fun m d => ainsert m d uid) st.gpuToModelUid) }) ∧
        isSortedAsc (sortNat ((freeExclusiveDevices st).take n.toNat)) = true ∧
        ∀ d ∈ (freeExclusiveDevices st).take n.toNat,
          alookup
            (((freeExclusiveDevices st).take n.toNat).foldl
              (fun m d => ainsert m d uid) st.gpuToModelUid) d = some uid))) := by
  constructor
  · exact ⟨by decide, by decide, by decide, by decide⟩
  · intro st uid n hnd hsub1 hsub2
    have hcount := alloc_count_eq st hnd hsub1 hsub2
    have hfreeNodup : (freeExclusiveDevices st).Nodup := hnd.filter _
    constructor
    · intro hlt
      unfold allocate_devices
      rw [if_pos (by omega)]
    · intro hle
      unfold allocate_devices
      rw [if_neg (by omega)]
      refine ⟨rfl, isSortedAsc_sortNat _, ?_⟩
      intro d hd
      exact alookup_foldl_ainsert_mem hd (hfreeNodup.sublist (List.take_sublist _ _))

/-- Witness for C4 at a concrete input: with two free GPUs a request for
five fails with the NoSlot error, state unchanged. -/
theorem C4_witness :
    allocate_devices { totalGpuDevices := [0,1] } "W" 5 =
      (.error (.runtimeError "No available slot found for the model"),
       { totalGpuDevices := [0,1] }) := by
  exact (C4_allocate_exclusive.2 { totalGpuDevices := [0,1] } "W" 5
    (by decide) (by simp) (by simp [userSpecAllocatedDevices])).1 (by decide)

/-- C5: `AllocateForEmbedding` returns, among the candidate GPUs (those with
no exclusive owner and no user-pinned tenant, plus those whose current
occupants are all non-vLLM), a GPU with the fewest current tenants
(exclusive + embedding + user-pinned), records the uid there, and fails with
`NoSlot` when the candidate set is empty; with occupants
`{0: a vLLM LLM, 1: empty, 2: an embedding model}` it returns `1`. -/
theorem C5_allocate_embedding :
    (allocate_devices_for_embedding
        { isVllm := fun u => decide (u = "A") }
        { totalGpuDevices := [0,1,2], gpuToModelUid := [(0,"A")],
          gpuToEmbeddingModelUids := [(2, ["B"])] } "X" =
      (.ok 1,
        { totalGpuDevices := [0,1,2], gpuToModelUid := [(0,"A")],
          gpuToEmbeddingModelUids := [(2, ["B"]), (1, ["X"])] })) ∧
    (∀ ctx st uid,
      (embCandidates ctx st = [] →
        allocate_devices_for_embedding ctx st uid =
          (.error (.runtimeError "No available slot found for the embedding model."), st)) ∧
      (∀ d st', allocate_devices_for_embedding ctx st uid = (.ok d, st') →
        d ∈ embCandidates ctx st ∧
        (∀ c ∈ embCandidates ctx st, tenantCount st d ≤ tenantCount st c) ∧
        ∃ s, alookup st'.gpuToEmbeddingModelUids d = some s ∧ uid ∈ s)) := by
  constructor
  · decide
  · intro ctx st uid
    constructor
    · intro hempty
      unfold allocate_devices_for_embedding
      rw [hempty]
      rfl
    · intro d st' h
      unfold allocate_devices_for_embedding at h
      cases hcand : embCandidates ctx st with
      | nil =>
        rw [hcand] at h
        exact absurd h (by simp [pickMinDevice])
      | cons c cs =>
        rw [hcand] at h
        simp only [pickMinDevice] at h
        have hd : (cs.foldl
            (fun best dev =>
              if tenantCount st dev < tenantCount st best then dev else best) c) = d := by
          have h1 := congrArg Prod.fst h
          simpa using h1
        have hst' : ({ st with gpuToEmbeddingModelUids :=
            (dAddToSet st.gpuToEmbeddingModelUids
              (cs.foldl
                (fun best dev =>
                  if tenantCount st dev < tenantCount st best then dev else best) c)
              uid) } : WorkerState) = st' := congrArg Prod.snd h
        refine ⟨?_, ?_, ?_⟩
        · rw [← hd]
          exact pickMin_foldl_mem st cs c
        · intro e he
          rw [← hd]
          exact pickMin_foldl_le st cs c e he
        · rw [← hst']
          dsimp only
          rw [← hd]
          exact alookup_dAddToSet_self _ _ _

/-- Witness for C5 at a concrete input: with no GPUs the candidate set is
empty and the embedding allocator fails with the NoSlot error. -/
theorem C5_witness :
    allocate_devices_for_embedding {} {} "X" =
      (.error (.runtimeError "No available slot found for the embedding model."), {}) :=
  ((C5_allocate_embedding.2 {} {} "X").1 (by decide))

/-- C6: `AllocatePinned(uid, model_type, indices)` fails with `BadDevice`
when `indices` is not a subset of `total_gpus`, fails with `Conflict` when a
requested index is exclusively held by a vLLM-backed replica (the pinned map
and all other state unchanged in both cases), and otherwise records
`(uid, model_type)` under every requested GPU and returns the indices sorted
ascending. -/
theorem C6_allocate_pinned :
    ∀ ctx st uid ty idxs,
      (¬(∀ i ∈ idxs, i ∈ st.totalGpuDevices) →
        allocate_devices_with_gpu_idx ctx st uid ty idxs =
          (.error (.valueError "cannot use the GPUs with these indexes"), st)) ∧
      ((∀ i ∈ idxs, i ∈ st.totalGpuDevices) →
        (∃ i ∈ idxs, ∃ rep, alookup st.gpuToModelUid i = some rep ∧ ctx.isVllm rep = true) →
        allocate_devices_with_gpu_idx ctx st uid ty idxs =
          (.error (.runtimeError "GPU index has been occupied with a vLLM model"), st)) ∧
      ((∀ i ∈ idxs, i ∈ st.totalGpuDevices) →
        (∀ i ∈ idxs, ∀ rep, alookup st.gpuToModelUid i = some rep → ctx.isVllm rep = false) →
        allocate_devices_with_gpu_idx ctx st uid ty idxs =
          (.ok (sortNat idxs),
            { st with userSpecifiedGpuToModelUids :=
                (idxs.foldl (fun m i => dAddToSet m i (uid, ty))
                  st.userSpecifiedGpuToModelUids) }) ∧
        isSortedAsc (sortNat idxs) = true ∧
        ∀ i ∈ idxs, ∃ s,
          alookup (idxs.foldl (fun m i => dAddToSet m i (uid, ty))
            st.userSpecifiedGpuToModelUids) i = some s ∧ (uid, ty) ∈ s) := by
  intro ctx st uid ty idxs
  refine ⟨?_, ?_, ?_⟩
  · intro hsub
    have hall : (idxs.all (fun i => decide (i ∈ st.totalGpuDevices))) = false := by
      by_contra hc
      rw [Bool.not_eq_false] at hc
      exact hsub (fun i hi => by simpa using List.all_eq_true.mp hc i hi)
    unfold allocate_devices_with_gpu_idx
    rw [if_pos (by rw [hall]; rfl)]
  · intro hsub hconf
    have hall : (idxs.all (fun i => decide (i ∈ st.totalGpuDevices))) = true :=
      List.all_eq_true.mpr (fun i hi => by simpa using hsub i hi)
    obtain ⟨i, hi, rep, hrep, hvllm⟩ := hconf
    have hany : (idxs.any (fun idx =>
        match alookup st.gpuToModelUid idx with
        | some rep => ctx.isVllm rep
        | none => false)) = true :=
      List.any_eq_true.mpr ⟨i, hi, (vllmCheck_eq_true ctx st i).mpr ⟨rep, hrep, hvllm⟩⟩
    unfold allocate_devices_with_gpu_idx
    rw [if_neg (by rw [hall]; simp), if_pos hany]
  · intro hsub hok
    have hall : (idxs.all (fun i => decide (i ∈ st.totalGpuDevices))) = true :=
      List.all_eq_true.mpr (fun i hi => by simpa using hsub i hi)
    have hany : (idxs.any (fun idx =>
        match alookup st.gpuToModelUid idx with
        | some rep => ctx.isVllm rep
        | none => false)) = false := by
      by_contra hc
      rw [Bool.not_eq_false] at hc
      obtain ⟨i, hi, hmatch⟩ := List.any_eq_true.mp hc
      obtain ⟨rep, hrep, hv⟩ := (vllmCheck_eq_true ctx st i).mp hmatch
      exact absurd (hok i hi rep hrep) (by simp [hv])
    unfold allocate_devices_with_gpu_idx
    rw [if_neg (by rw [hall]; simp), if_neg (by rw [hany]; simp)]
    exact ⟨rfl, isSortedAsc_sortNat _, fun i hi => pinned_foldl_mem hi _⟩

/-- Witness for C6 at a concrete input: requesting GPU index 5 on a worker
that only sees GPU 0 fails with the BadDevice error, state unchanged. -/
theorem C6_witness :
    allocate_devices_with_gpu_idx {} { totalGpuDevices := [0] } "m" "LLM" [5] =
      (.error (.valueError "cannot use the GPUs with these indexes"),
       { totalGpuDevices := [0] }) :=
  (C6_allocate_pinned {} { totalGpuDevices := [0] } "m" "LLM" [5]).1 (by decide)

/-! ### Lemmas on release, prevalidate and launch plumbing -/

/-- `release_devices` leaves no reference to the uid in any device map. -/
theorem release_devices_clears (st : WorkerState) (uid : String) :
    (∀ p ∈ (release_devices st uid).gpuToModelUid, p.2 ≠ uid) ∧
    (∀ p ∈ (release_devices st uid).gpuToEmbeddingModelUids, uid ∉ p.2) ∧
    (∀ p ∈ (release_devices st uid).userSpecifiedGpuToModelUids,
      ∀ mi ∈ p.2, mi.1 ≠ uid) := by
  refine ⟨?_, ?_, ?_⟩
  · intro p hp
    have := List.of_mem_filter hp
    simpa using this
  · intro p hp
    unfold release_devices at hp
    simp only [List.mem_map] at hp
    obtain ⟨q, _, rfl⟩ := hp
    intro hmem
    have := List.of_mem_filter hmem
    simp at this
  · intro p hp
    unfold release_devices at hp
    simp only [List.mem_map] at hp
    obtain ⟨q, _, rfl⟩ := hp
    intro mi hmi
    have := List.of_mem_filter hmi
    simpa using this

theorem release_addr_eq (st : WorkerState) (uid : String) :
    (release_devices st uid).modelUidToAddr = st.modelUidToAddr := rfl

theorem release_count_eq (st : WorkerState) (uid : String) :
    (release_devices st uid).modelUidToRecoverCount = st.modelUidToRecoverCount := rfl

theorem release_model_eq (st : WorkerState) (uid : String) :
    (release_devices st uid).modelUidToModel = st.modelUidToModel := rfl

theorem release_guard_eq (st : WorkerState) (uid : String) :
    (release_devices st uid).launchingGuard = st.launchingGuard := rfl

theorem release_subPools_eq (st : WorkerState) (uid : String) :
    (release_devices st uid).subPools = st.subPools := rfl

theorem release_args_eq (st : WorkerState) (uid : String) :
    (release_devices st uid).modelUidToLaunchArgs = st.modelUidToLaunchArgs := rfl

/-- An `n_gpu` validation failure short-circuits the whole pre-validation. -/
theorem prevalidate_ngpu_error (ctx : Ctx) (st : WorkerState) (args : LaunchArgs)
    (e : Err) (h : prevalidateNGpu ctx args.n_gpu = .error e) :
    prevalidate ctx st args = .error e := by
  unfold prevalidate
  rw [h]

/-- A pre-validation failure leaves the state untouched and is re-raised. -/
theorem launch_prevalidate_error (ctx : Ctx) (sched : LaunchSchedule)
    (A : String) (E : List String) (args : LaunchArgs) (st : WorkerState) (e : Err)
    (h : prevalidate ctx st args = .error e) :
    launch_builtin_model ctx sched A E args st = (.error e, st, []) := by
  unfold launch_builtin_model
  rw [h]

/-! ### Claim theorems: terminate -/

/-- C8: terminating a model whose uid is in the Launching Guard raises Busy
and mutates no worker state (tables, device maps, sub-pools unchanged, no
status pushes). -/
theorem C8_terminate_busy (ctx : Ctx) (st : WorkerState) (uid : String)
    (d : Bool) (pa : Option (List String)) (h : uid ∈ st.launchingGuard) :
    terminate_model ctx st uid d pa = (.error (.valueError "is launching"), st, []) := by
  unfold terminate_model
  rw [if_pos h]

/-- Witness for C8 at a concrete input. -/
theorem C8_witness :
    terminate_model {} { launchingGuard := ["m"] } "m" false none =
      (.error (.valueError "is launching"), { launchingGuard := ["m"] }, []) :=
  C8_terminate_busy {} { launchingGuard := ["m"] } "m" false none (by decide)

/-- C9: terminating a uid absent from the Model Table (e.g. a second call
for an already-terminated uid) does not raise, pushes TERMINATING followed
by ERROR (when `is_model_die`) or TERMINATED to the Status Guard, and leaves
the Model Table, address map, recovery counters and device maps without any
entry for that uid. -/
theorem C9_terminate_idempotent (ctx : Ctx) (st : WorkerState) (uid : String)
    (d : Bool) (pa : Option (List String))
    (hguard : uid ∉ st.launchingGuard)
    (htable : uid ∉ st.modelUidToModel)
    (hnodupA : (st.modelUidToAddr.map Prod.fst).Nodup)
    (hnodupR : (st.modelUidToRecoverCount.map Prod.fst).Nodup)
    (hsg : ctx.statusGuardConnected = true) :
    (terminate_model ctx st uid d pa).1 = .ok () ∧
    (terminate_model ctx st uid d pa).2.2 =
      [(terminate_origin_uid uid, "TERMINATING"),
       (terminate_origin_uid uid, if d then "ERROR" else "TERMINATED")] ∧
    uid ∉ (terminate_model ctx st uid d pa).2.1.modelUidToModel ∧
    alookup (terminate_model ctx st uid d pa).2.1.modelUidToAddr uid = none ∧
    alookup (terminate_model ctx st uid d pa).2.1.modelUidToRecoverCount uid = none ∧
    (∀ p ∈ (terminate_model ctx st uid d pa).2.1.gpuToModelUid, p.2 ≠ uid) ∧
    (∀ p ∈ (terminate_model ctx st uid d pa).2.1.gpuToEmbeddingModelUids, uid ∉ p.2) ∧
    (∀ p ∈ (terminate_model ctx st uid d pa).2.1.userSpecifiedGpuToModelUids,
      ∀ mi ∈ p.2, mi.1 ≠ uid) := by
  have hclear := release_devices_clears
  unfold terminate_model
  rw [if_neg hguard]
  cases halook : alookup st.modelUidToAddr uid with
  | none =>
    cases d <;>
      simp only [halook, hsg, if_true, if_false, Bool.false_eq_true, ite_true,
        ite_false, reduceIte] <;>
      refine ⟨trivial, by simp, fun hmem => htable (mem_serase_sub hmem), ?_, ?_, ?_, ?_, ?_⟩ <;>
      first
        | exact alookup_aerase_self _ _ (by rw [release_addr_eq]; exact hnodupA)
        | exact alookup_aerase_self _ _ (by rw [release_count_eq]; exact hnodupR)
        | exact (hclear _ _).1
        | exact (hclear _ _).2.1
        | exact (hclear _ _).2.2
  | some a =>
    cases d <;>
      simp only [halook, hsg, if_true, if_false, Bool.false_eq_true, ite_true,
        ite_false, reduceIte] <;>
      refine ⟨trivial, by simp, fun hmem => htable (mem_serase_sub hmem), ?_, ?_, ?_, ?_, ?_⟩ <;>
      first
        | exact alookup_aerase_self _ _ (by rw [release_addr_eq]; exact hnodupA)
        | exact alookup_aerase_self _ _ (by rw [release_count_eq]; exact hnodupR)
        | exact (hclear _ _).1
        | exact (hclear _ _).2.1
        | exact (hclear _ _).2.2

/-- Witness for C9 at a concrete input: terminating an unknown uid on an
empty worker succeeds and pushes TERMINATING then TERMINATED. -/
theorem C9_witness :
    (terminate_model {} {} "m-1" false none).1 = .ok () ∧
    (terminate_model {} {} "m-1" false none).2.2 =
      [(terminate_origin_uid "m-1", "TERMINATING"),
       (terminate_origin_uid "m-1", if false then "ERROR" else "TERMINATED")] := by
  have h := C9_terminate_idempotent {} {} "m-1" false none (by decide) (by decide)
    (by decide) (by decide) (by decide)
  exact ⟨h.1, h.2.1⟩

/-! ### State-shape lemmas for the launch pipeline -/

theorem OtherFieldsEq.refl (s : WorkerState) : OtherFieldsEq s s :=
  ⟨rfl, rfl, rfl, rfl, rfl, rfl, rfl, rfl⟩

theorem devClear_of_eq {s t : WorkerState} {uid : String}
    (he : DeviceMapsEq s t) (h : DevClear t uid) : DevClear s uid := by
  obtain ⟨h1, h2, h3⟩ := he
  exact ⟨h1 ▸ h.1, h2 ▸ h.2.1, h3 ▸ h.2.2⟩

theorem devClear_release (st : WorkerState) (uid : String) :
    DevClear (release_devices st uid) uid := release_devices_clears st uid

/-- A successful pre-validation implies the uid was in neither the
Launching Guard nor the Model Table (lines 976-980). -/
theorem prevalidate_ok_not_running {ctx : Ctx} {st : WorkerState}
    {args : LaunchArgs} {g : Option (List Nat)}
    (h : prevalidate ctx st args = .ok g) :
    args.model_uid ∉ st.launchingGuard ∧ args.model_uid ∉ st.modelUidToModel := by
  unfold prevalidate at h
  repeat' split at h
  all_goals try exact Except.noConfusion h
  rename_i hnot
  exact ⟨fun hg => hnot (Or.inl hg), fun ht => hnot (Or.inr ht)⟩

/-- The exclusive allocator only touches `gpuToModelUid`. -/
theorem allocate_devices_state (st : WorkerState) (uid : String) (n : Int) :
    OtherFieldsEq (allocate_devices st uid n).2 st ∧
    (allocate_devices st uid n).2.subPools = st.subPools ∧
    (allocate_devices st uid n).2.gpuToEmbeddingModelUids = st.gpuToEmbeddingModelUids ∧
    (allocate_devices st uid n).2.userSpecifiedGpuToModelUids = st.userSpecifiedGpuToModelUids := by
  unfold allocate_devices
  dsimp only
  split
  · exact ⟨OtherFieldsEq.refl st, rfl, rfl, rfl⟩
  · exact ⟨⟨rfl, rfl, rfl, rfl, rfl, rfl, rfl, rfl⟩, rfl, rfl, rfl⟩

/-- The exclusive allocator leaves the state unchanged on failure. -/
theorem allocate_devices_error_state (st : WorkerState) (uid : String) (n : Int)
    {e : Err} {st' : WorkerState}
    (h : allocate_devices st uid n = (.error e, st')) : st' = st := by
  unfold allocate_devices at h
  dsimp only at h
  split at h
  · exact (congrArg Prod.snd h).symm
  · exact absurd (congrArg Prod.fst h) (by simp)

/-- The embedding allocator only touches `gpuToEmbeddingModelUids`. -/
theorem allocate_embedding_state (ctx : Ctx) (st : WorkerState) (uid : String) :
    OtherFieldsEq (allocate_devices_for_embedding ctx st uid).2 st ∧
    (allocate_devices_for_embedding ctx st uid).2.subPools = st.subPools ∧
    (allocate_devices_for_embedding ctx st uid).2.gpuToModelUid = st.gpuToModelUid ∧
    (allocate_devices_for_embedding ctx st uid).2.userSpecifiedGpuToModelUids = st.userSpecifiedGpuToModelUids := by
  unfold allocate_devices_for_embedding
  split
  · exact ⟨OtherFieldsEq.refl st, rfl, rfl, rfl⟩
  · exact ⟨⟨rfl, rfl, rfl, rfl, rfl, rfl, rfl, rfl⟩, rfl, rfl, rfl⟩

theorem allocate_embedding_error_state (ctx : Ctx) (st : WorkerState) (uid : String)
    {e : Err} {st' : WorkerState}
    (h : allocate_devices_for_embedding ctx st uid = (.error e, st')) : st' = st := by
  unfold allocate_devices_for_embedding at h
  split at h
  · exact (congrArg Prod.snd h).symm
  · exact absurd (congrArg Prod.fst h) (by simp)

/-- The pinned allocator only touches `userSpecifiedGpuToModelUids`. -/
theorem allocate_gpu_idx_state (ctx : Ctx) (st : WorkerState)
    (uid ty : String) (idxs : List Nat) :
    OtherFieldsEq (allocate_devices_with_gpu_idx ctx st uid ty idxs).2 st ∧
    (allocate_devices_with_gpu_idx ctx st uid ty idxs).2.subPools = st.subPools ∧
    (allocate_devices_with_gpu_idx ctx st uid ty idxs).2.gpuToModelUid = st.gpuToModelUid ∧
    (allocate_devices_with_gpu_idx ctx st uid ty idxs).2.gpuToEmbeddingModelUids = st.gpuToEmbeddingModelUids := by
  unfold allocate_devices_with_gpu_idx
  split
  · exact ⟨OtherFieldsEq.refl st, rfl, rfl, rfl⟩
  · split
    · exact ⟨OtherFieldsEq.refl st, rfl, rfl, rfl⟩
    · exact ⟨⟨rfl, rfl, rfl, rfl, rfl, rfl, rfl, rfl⟩, rfl, rfl, rfl⟩

theorem allocate_gpu_idx_error_state (ctx : Ctx) (st : WorkerState)
    (uid ty : String) (idxs : List Nat) {e : Err} {st' : WorkerState}
    (h : allocate_devices_with_gpu_idx ctx st uid ty idxs = (.error e, st')) : st' = st := by
  unfold allocate_devices_with_gpu_idx at h
  split at h
  · exact (congrArg Prod.snd h).symm
  · split at h
    · exact (congrArg Prod.snd h).symm
    · exact absurd (congrArg Prod.fst h) (by simp)

theorem allocForSubpool_state (ctx : Ctx) (st : WorkerState)
    (uid ty : String) (cnt : Int) :
    OtherFieldsEq (allocForSubpool ctx st uid ty cnt).2 st ∧
    (allocForSubpool ctx st uid ty cnt).2.subPools = st.subPools := by
  unfold allocForSubpool
  split
  · rcases hemb : allocate_devices_for_embedding ctx st uid with ⟨res, stE⟩
    have h1 := allocate_embedding_state ctx st uid
    rw [hemb] at h1
    cases res with
    | error e => simpa using ⟨h1.1, h1.2.1⟩
    | ok d => simpa using ⟨h1.1, h1.2.1⟩
  · exact ⟨(allocate_devices_state st uid cnt).1, (allocate_devices_state st uid cnt).2.1⟩

theorem allocForSubpool_error_state (ctx : Ctx) (st : WorkerState)
    (uid ty : String) (cnt : Int) {e : Err} {st' : WorkerState}
    (h : allocForSubpool ctx st uid ty cnt = (.error e, st')) : st' = st := by
  unfold allocForSubpool at h
  split at h
  · rcases hemb : allocate_devices_for_embedding ctx st uid with ⟨res, stE⟩
    rw [hemb] at h
    cases res with
    | error e2 =>
      simp only at h
      have := allocate_embedding_error_state ctx st uid hemb
      rw [← this]
      exact (congrArg Prod.snd h).symm
    | ok d => exact absurd (congrArg Prod.fst h) (by simp)
  · exact allocate_devices_error_state st uid cnt h

theorem OtherFieldsEq.total {s t : WorkerState} (h : OtherFieldsEq s t) :
    s.totalGpuDevices = t.totalGpuDevices := h.1

theorem OtherFieldsEq.model {s t : WorkerState} (h : OtherFieldsEq s t) :
    s.modelUidToModel = t.modelUidToModel := h.2.1

theorem OtherFieldsEq.spec {s t : WorkerState} (h : OtherFieldsEq s t) :
    s.modelUidToModelSpec = t.modelUidToModelSpec := h.2.2.1

theorem OtherFieldsEq.status {s t : WorkerState} (h : OtherFieldsEq s t) :
    s.modelUidToModelStatus = t.modelUidToModelStatus := h.2.2.2.1

theorem OtherFieldsEq.addr {s t : WorkerState} (h : OtherFieldsEq s t) :
    s.modelUidToAddr = t.modelUidToAddr := h.2.2.2.2.1

theorem OtherFieldsEq.count {s t : WorkerState} (h : OtherFieldsEq s t) :
    s.modelUidToRecoverCount = t.modelUidToRecoverCount := h.2.2.2.2.2.1

theorem OtherFieldsEq.largs {s t : WorkerState} (h : OtherFieldsEq s t) :
    s.modelUidToLaunchArgs = t.modelUidToLaunchArgs := h.2.2.2.2.2.2.1

theorem OtherFieldsEq.guard {s t : WorkerState} (h : OtherFieldsEq s t) :
    s.launchingGuard = t.launchingGuard := h.2.2.2.2.2.2.2

theorem OtherFieldsEq.trans {a b c : WorkerState}
    (h1 : OtherFieldsEq a b) (h2 : OtherFieldsEq b c) : OtherFieldsEq a c :=
  ⟨h1.total.trans h2.total, h1.model.trans h2.model, h1.spec.trans h2.spec,
   h1.status.trans h2.status, h1.addr.trans h2.addr, h1.count.trans h2.count,
   h1.largs.trans h2.largs, h1.guard.trans h2.guard⟩

theorem subpoolAlloc_state (ctx : Ctx) (st : WorkerState) (uid ty : String)
    (ng : Option NGpu) (gi : Option (List Nat)) :
    OtherFieldsEq (subpoolAlloc ctx st uid ty ng gi).2 st ∧
    (subpoolAlloc ctx st uid ty ng gi).2.subPools = st.subPools := by
  cases gi with
  | some idxs =>
    simp only [subpoolAlloc]
    exact ⟨(allocate_gpu_idx_state ctx st uid ty idxs).1,
      (allocate_gpu_idx_state ctx st uid ty idxs).2.1⟩
  | none =>
    cases ng with
    | none =>
      simp only [subpoolAlloc]
      exact ⟨OtherFieldsEq.refl st, by simp⟩
    | some v =>
      cases v with
      | int n =>
        simp only [subpoolAlloc]
        exact ⟨(allocForSubpool_state ctx st uid ty n).1,
          (allocForSubpool_state ctx st uid ty n).2⟩
      | str s =>
        simp only [subpoolAlloc]
        split
        · exact ⟨(allocForSubpool_state ctx st uid ty 1).1,
            (allocForSubpool_state ctx st uid ty 1).2⟩
        · exact ⟨OtherFieldsEq.refl st, by simp⟩

theorem subpoolAlloc_error_state (ctx : Ctx) (st : WorkerState) (uid ty : String)
    (ng : Option NGpu) (gi : Option (List Nat)) {e : Err} {st' : WorkerState}
    (h : subpoolAlloc ctx st uid ty ng gi = (.error e, st')) : st' = st := by
  cases gi with
  | some idxs =>
    simp only [subpoolAlloc] at h
    exact allocate_gpu_idx_error_state ctx st uid ty idxs h
  | none =>
    cases ng with
    | none =>
      simp only [subpoolAlloc] at h
      exact absurd (congrArg Prod.fst h) (by simp)
    | some v =>
      cases v with
      | int n =>
        simp only [subpoolAlloc] at h
        exact allocForSubpool_error_state ctx st uid ty n h
      | str s =>
        simp only [subpoolAlloc] at h
        split at h
        · exact allocForSubpool_error_state ctx st uid ty 1 h
        · exact absurd (congrArg Prod.fst h) (by simp)

theorem create_subpool_state (ctx : Ctx) (sched : LaunchSchedule) (A : String)
    (st : WorkerState) (uid ty : String) (ng : Option NGpu) (gi : Option (List Nat)) :
    OtherFieldsEq (create_subpool ctx sched A st uid ty ng gi).2 st ∧
    ((∃ e, (create_subpool ctx sched A st uid ty ng gi).1 = .error e) →
      (create_subpool ctx sched A st uid ty ng gi).2.subPools = st.subPools) ∧
    (∀ r, (create_subpool ctx sched A st uid ty ng gi).1 = .ok r →
      r.1 = A ∧ (create_subpool ctx sched A st uid ty ng gi).2.subPools
        = st.subPools ++ [A]) := by
  unfold create_subpool
  rcases hA : subpoolAlloc ctx st uid ty ng gi with ⟨res, stA⟩
  have hS := subpoolAlloc_state ctx st uid ty ng gi
  rw [hA] at hS
  cases res with
  | error e =>
    exact ⟨hS.1, fun _ => hS.2, fun r hr => absurd hr (by simp)⟩
  | ok devices =>
    by_cases hap : sched.appendMainPoolOk
    · simp only [hap, if_true]
      refine ⟨hS.1, ?_, ?_⟩
      · rintro ⟨e, he⟩
        exact absurd he (by simp)
      · intro r hr
        simp only [Except.ok.injEq] at hr
        subst hr
        exact ⟨rfl, congrArg (fun l => l ++ [A]) hS.2⟩
    · simp only [hap, if_false]
      exact ⟨hS.1, fun _ => hS.2, fun r hr => absurd hr (by simp)⟩

theorem create_subpool_error_state (ctx : Ctx) (sched : LaunchSchedule) (A : String)
    (st : WorkerState) (uid ty : String) (ng : Option NGpu) (gi : Option (List Nat))
    {e : Err} {st2 : WorkerState}
    (hap : sched.appendMainPoolOk = true)
    (h : create_subpool ctx sched A st uid ty ng gi = (.error e, st2)) : st2 = st := by
  unfold create_subpool at h
  rcases hA : subpoolAlloc ctx st uid ty ng gi with ⟨res, stA⟩
  rw [hA] at h
  cases res with
  | error e2 =>
    simp only [Prod.mk.injEq, Except.error.injEq] at h
    rw [← h.2]
    exact subpoolAlloc_error_state ctx st uid ty ng gi hA
  | ok devices =>
    simp [hap] at h

/-- The failure cleanup only touches device maps and `subPools`. -/
theorem launchFailureCleanup_other (st : WorkerState) (uid : String) (as : List String) :
    OtherFieldsEq (launchFailureCleanup st uid as) st :=
  ⟨rfl, rfl, rfl, rfl, rfl, rfl, rfl, rfl⟩

theorem launchFailureCleanup_subPools (st : WorkerState) (uid : String) (as : List String) :
    (launchFailureCleanup st uid as).subPools = eraseAll st.subPools as := rfl

theorem launchFailureCleanup_clears (st : WorkerState) (uid : String) (as : List String) :
    DevClear (launchFailureCleanup st uid as) uid := release_devices_clears st uid

/-- The commit only touches the model tables. -/
theorem commitLaunch_guard (ctx : Ctx) (st : WorkerState) (args : LaunchArgs) (a : String) :
    (commitLaunch ctx st args a).launchingGuard = st.launchingGuard := rfl

theorem commitLaunch_subPools (ctx : Ctx) (st : WorkerState) (args : LaunchArgs) (a : String) :
    (commitLaunch ctx st args a).subPools = st.subPools := rfl

theorem commitLaunch_devices (ctx : Ctx) (st : WorkerState) (args : LaunchArgs) (a : String) :
    DeviceMapsEq (commitLaunch ctx st args a) st := ⟨rfl, rfl, rfl⟩

/-- The `try` body never adds or removes Launching Guard entries. -/
theorem launchBody_guard (ctx : Ctx) (sched : LaunchSchedule) (A : String)
    (E : List String) (args : LaunchArgs) (gi : Option (List Nat)) (st : WorkerState) :
    (launchBody ctx sched A E args gi st).2.1.launchingGuard = st.launchingGuard := by
  unfold launchBody
  cases hv : sched.venvPrepOk with
  | false => rw [if_pos (by rfl)]
  | true =>
    rw [if_neg (by simp)]
    rcases hcs : create_subpool ctx sched A st args.model_uid args.model_type
        args.n_gpu gi with ⟨res, st2⟩
    have hS := create_subpool_state ctx sched A st args.model_uid args.model_type
      args.n_gpu gi
    rw [hcs] at hS
    cases res with
    | error e => exact hS.1.guard
    | ok r =>
      rcases r with ⟨addr, devices⟩
      dsimp only
      split
      · exact hS.1.guard
      · exact hS.1.guard
      · exact hS.1.guard
      · rw [commitLaunch_guard]
        split
        · exact hS.1.guard
        · exact hS.1.guard

/-- A partially failed gather only creates a subset of the requested
extra pools. -/
theorem gatherCreated_sublist (oks : List Bool) (as : List String) :
    (gatherCreated oks as).Sublist as := by
  induction as generalizing oks with
  | nil => simp [gatherCreated]
  | cons a as ih =>
    rw [gatherCreated]
    split
    · exact (ih oks.tail).cons₂ a
    · exact (ih oks.tail).cons a

/-- When every task flag is true the gather succeeds. -/
theorem gatherOk_of_all {oks : List Bool} (h : oks.all id = true) (n : Nat) :
    gatherOk oks n = true := by
  unfold gatherOk
  rw [List.all_eq_true] at h ⊢
  exact fun x hx => h x (List.take_subset _ _ hx)

/-- The gather-failure outcome only arises from a failed gather. -/
theorem innerOutcome_gather {sched : LaunchSchedule} {v c : Bool} {n : Nat}
    (h : innerOutcome sched v c n = .failGather) :
    gatherOk sched.extraPoolOks n = false := by
  unfold innerOutcome at h
  repeat' split at h
  all_goals try exact InnerOutcome.noConfusion h
  rename_i hg
  simp only [Bool.and_eq_true] at hg
  simpa using hg.2

/-- Full characterization of the `try` body: on failure the guard and all
tables are untouched, the sub-pool set is restored up to a leak that is a
subset of the extra addresses and can only be nonempty when an extra-pool
task of a failed gather succeeded (freshness assumed), and the device maps
are untouched, scrubbed of the uid, or leaked only when the primary
`append_sub_pool` failed; on success the commit has happened. -/
theorem launchBody_spec (ctx : Ctx) (sched : LaunchSchedule) (A : String)
    (E : List String) (args : LaunchArgs) (gi : Option (List Nat)) (st : WorkerState)
    (hfreshA : A ∉ st.subPools)
    (hfreshE : ∀ a ∈ E, a ∉ st.subPools)
    (hnd : (A :: E).Nodup) :
    (∃ e stB, launchBody ctx sched A E args gi st = (.error e, stB, []) ∧
      OtherFieldsEq stB st ∧
      (∃ leak, stB.subPools = st.subPools ++ leak ∧ leak.Sublist E ∧
        (sched.extraPoolOks.all id = true → leak = [])) ∧
      (DeviceMapsEq stB st ∨ DevClear stB args.model_uid ∨
        sched.appendMainPoolOk = false)) ∨
    (∃ stB, launchBody ctx sched A E args gi st =
        (.ok A, stB, [((parse_replica_model_uid args.model_uid).1, "READY")]) ∧
      stB.modelUidToModel = dinsert st.modelUidToModel args.model_uid ∧
      stB.modelUidToModelSpec = dinsert st.modelUidToModelSpec args.model_uid ∧
      stB.modelUidToModelStatus = ainsert st.modelUidToModelStatus args.model_uid "" ∧
      stB.modelUidToAddr = ainsert st.modelUidToAddr args.model_uid A ∧
      stB.modelUidToRecoverCount
        = asetdefault st.modelUidToRecoverCount args.model_uid ctx.autoRecoverLimit ∧
      stB.modelUidToLaunchArgs = ainsert st.modelUidToLaunchArgs args.model_uid args ∧
      stB.launchingGuard = st.launchingGuard ∧
      A ∈ stB.subPools) := by
  have hAE : A ∉ E := (List.nodup_cons.mp hnd).1
  have hndE : E.Nodup := (List.nodup_cons.mp hnd).2
  unfold launchBody
  cases hv : sched.venvPrepOk with
  | false =>
    rw [if_pos (by rfl)]
    exact Or.inl ⟨.external, st, rfl, OtherFieldsEq.refl st,
      ⟨[], by simp, List.nil_sublist E, fun _ => rfl⟩,
      Or.inl ⟨rfl, rfl, rfl⟩⟩
  | true =>
    rw [if_neg (by simp)]
    rcases hcs : create_subpool ctx sched A st args.model_uid args.model_type
        args.n_gpu gi with ⟨res, st2⟩
    have hS := create_subpool_state ctx sched A st args.model_uid args.model_type
      args.n_gpu gi
    rw [hcs] at hS
    cases res with
    | error e =>
      have hsp : st2.subPools = st.subPools := hS.2.1 ⟨e, rfl⟩
      left
      refine ⟨e, st2, rfl, hS.1,
        ⟨[], by simp [hsp], List.nil_sublist E, fun _ => rfl⟩, ?_⟩
      by_cases hap : sched.appendMainPoolOk
      · have h2 : st2 = st := create_subpool_error_state ctx sched A st args.model_uid
          args.model_type args.n_gpu gi hap hcs
        subst h2
        exact Or.inl ⟨rfl, rfl, rfl⟩
      · refine Or.inr (Or.inr ?_)
        revert hap
        cases sched.appendMainPoolOk <;> simp
    | ok r =>
      rcases r with ⟨addr, devices⟩
      obtain ⟨haddr, hsp⟩ := hS.2.2 (addr, devices) rfl
      have haddr2 : A = addr := haddr.symm
      subst haddr2
      have hspl : st2.subPools = st.subPools ++ [A] := hsp
      have hndTake : (A :: E.take devices.length).Nodup :=
        List.nodup_cons.mpr
          ⟨fun h => hAE (List.take_subset _ _ h), hndE.sublist (List.take_sublist _ _)⟩
      have hfreshTake : ∀ a ∈ A :: E.take devices.length, a ∉ st.subPools := by
        intro a ha
        rcases List.mem_cons.mp ha with rfl | ha2
        · exact hfreshA
        · exact hfreshE a (List.take_subset _ _ ha2)
      dsimp only
      split
      · left
        refine ⟨_, _, rfl, hS.1,
          ⟨[], ?_, List.nil_sublist E, fun _ => rfl⟩,
          Or.inr (Or.inl (launchFailureCleanup_clears _ _ _))⟩
        rw [List.append_nil, launchFailureCleanup_subPools, hspl]
        exact eraseAll_singleton hfreshA
      · rename_i hio
        left
        refine ⟨_, _, rfl, hS.1,
          ⟨gatherCreated sched.extraPoolOks (E.take devices.length), ?_, ?_, ?_⟩,
          Or.inr (Or.inl (launchFailureCleanup_clears _ _ _))⟩
        · rw [launchFailureCleanup_subPools]
          show serase (st2.subPools ++ gatherCreated sched.extraPoolOks
            (E.take devices.length)) A
            = st.subPools ++ gatherCreated sched.extraPoolOks (E.take devices.length)
          rw [hspl, List.append_assoc, List.singleton_append,
            serase_append_of_not_mem _ hfreshA, serase_cons_self]
        · exact (gatherCreated_sublist _ _).trans (List.take_sublist _ _)
        · intro hall
          have hfalse := innerOutcome_gather hio
          rw [gatherOk_of_all hall] at hfalse
          exact Bool.noConfusion hfalse
      · left
        refine ⟨_, _, rfl, hS.1,
          ⟨[], ?_, List.nil_sublist E, fun _ => rfl⟩,
          Or.inr (Or.inl (launchFailureCleanup_clears _ _ _))⟩
        rw [List.append_nil, launchFailureCleanup_subPools]
        show eraseAll (st2.subPools ++ E.take devices.length)
          (A :: E.take devices.length) = st.subPools
        rw [hspl, List.append_assoc, List.singleton_append]
        exact eraseAll_append hndTake hfreshTake
      · right
        split
        · refine ⟨_, rfl,
            congrArg (fun l => dinsert l args.model_uid) hS.1.model,
            congrArg (fun l => dinsert l args.model_uid) hS.1.spec,
            congrArg (fun m => ainsert m args.model_uid "") hS.1.status,
            congrArg (fun m => ainsert m args.model_uid A) hS.1.addr,
            congrArg (fun m => asetdefault m args.model_uid ctx.autoRecoverLimit) hS.1.count,
            congrArg (fun m => ainsert m args.model_uid args) hS.1.largs,
            hS.1.guard, ?_⟩
          show A ∈ st2.subPools ++ E.take devices.length
          rw [hspl]
          simp
        · refine ⟨_, rfl,
            congrArg (fun l => dinsert l args.model_uid) hS.1.model,
            congrArg (fun l => dinsert l args.model_uid) hS.1.spec,
            congrArg (fun m => ainsert m args.model_uid "") hS.1.status,
            congrArg (fun m => ainsert m args.model_uid A) hS.1.addr,
            congrArg (fun m => asetdefault m args.model_uid ctx.autoRecoverLimit) hS.1.count,
            congrArg (fun m => ainsert m args.model_uid args) hS.1.largs,
            hS.1.guard, ?_⟩
          show A ∈ st2.subPools
          rw [hspl]
          simp

/-- Table-level characterization of the `try` body, without freshness
assumptions: failures leave all tables untouched; success commits. -/
theorem launchBody_tables (ctx : Ctx) (sched : LaunchSchedule) (A : String)
    (E : List String) (args : LaunchArgs) (gi : Option (List Nat)) (st : WorkerState) :
    (∃ e stB logB, launchBody ctx sched A E args gi st = (.error e, stB, logB) ∧
      OtherFieldsEq stB st) ∨
    (∃ stB logB, launchBody ctx sched A E args gi st = (.ok A, stB, logB) ∧
      stB.modelUidToModel = dinsert st.modelUidToModel args.model_uid ∧
      stB.modelUidToRecoverCount
        = asetdefault st.modelUidToRecoverCount args.model_uid ctx.autoRecoverLimit ∧
      stB.launchingGuard = st.launchingGuard) := by
  unfold launchBody
  cases hv : sched.venvPrepOk with
  | false =>
    rw [if_pos (by rfl)]
    exact Or.inl ⟨.external, st, [], rfl, OtherFieldsEq.refl st⟩
  | true =>
    rw [if_neg (by simp)]
    rcases hcs : create_subpool ctx sched A st args.model_uid args.model_type
        args.n_gpu gi with ⟨res, st2⟩
    have hS := create_subpool_state ctx sched A st args.model_uid args.model_type
      args.n_gpu gi
    rw [hcs] at hS
    cases res with
    | error e => exact Or.inl ⟨e, st2, [], rfl, hS.1⟩
    | ok r =>
      rcases r with ⟨addr, devices⟩
      have haddr2 : A = addr := (hS.2.2 (addr, devices) rfl).1.symm
      subst haddr2
      dsimp only
      split
      · exact Or.inl ⟨_, _, _, rfl, hS.1⟩
      · exact Or.inl ⟨_, _, _, rfl, hS.1⟩
      · exact Or.inl ⟨_, _, _, rfl, hS.1⟩
      · right
        split
        · exact ⟨_, _, rfl,
            congrArg (fun l => dinsert l args.model_uid) hS.1.model,
            congrArg (fun m => asetdefault m args.model_uid ctx.autoRecoverLimit) hS.1.count,
            hS.1.guard⟩
        · exact ⟨_, _, rfl,
            congrArg (fun l => dinsert l args.model_uid) hS.1.model,
            congrArg (fun m => asetdefault m args.model_uid ctx.autoRecoverLimit) hS.1.count,
            hS.1.guard⟩

/-- The launch removes its Launching Guard entry on every exit path. -/
theorem launch_guard_eq (ctx : Ctx) (sched : LaunchSchedule) (A : String)
    (E : List String) (args : LaunchArgs) (st : WorkerState) :
    (launch_builtin_model ctx sched A E args st).2.1.launchingGuard
      = st.launchingGuard := by
  unfold launch_builtin_model
  cases hpv : prevalidate ctx st args with
  | error e => rfl
  | ok g =>
    have hng := (prevalidate_ok_not_running hpv).1
    dsimp only
    rw [launchBody_guard]
    show serase (dinsert st.launchingGuard args.model_uid) args.model_uid
      = st.launchingGuard
    exact serase_dinsert_of_not_mem hng

/-- A recovery counter binding survives any launch (the commit point uses
`setdefault`, which never overwrites an existing binding). -/
theorem launch_count_preserved (ctx : Ctx) (sched : LaunchSchedule) (A : String)
    (E : List String) (args : LaunchArgs) (st : WorkerState) (k : String)
    (c : Option Int) (h : alookup st.modelUidToRecoverCount k = some c) :
    alookup (launch_builtin_model ctx sched A E args st).2.1.modelUidToRecoverCount k
      = some c := by
  unfold launch_builtin_model
  cases hpv : prevalidate ctx st args with
  | error e => exact h
  | ok g =>
    dsimp only
    rcases launchBody_tables ctx sched A E args g
        { st with launchingGuard := dinsert st.launchingGuard args.model_uid } with
      ⟨e, stB, logB, heq, hO⟩ | ⟨stB, logB, heq, _, hc2, _⟩
    · rw [heq]
      dsimp only
      rw [hO.count]
      exact h
    · rw [heq]
      dsimp only
      rw [hc2]
      exact alookup_asetdefault_of_some _ _ _ _ _ h

theorem dinsert_nodup {α : Type} [DecidableEq α] {l : List α} {x : α}
    (h : l.Nodup) : (dinsert l x).Nodup := by
  unfold dinsert
  split
  · exact h
  · rename_i hx
    exact List.nodup_append.mpr ⟨h, List.nodup_singleton x,
      fun a ha hax => hx (by rwa [List.mem_singleton.mp hax] at ha)⟩

theorem not_mem_serase_dinsert {l : List String} {x : String} (h : l.Nodup) :
    x ∉ serase (dinsert l x) x :=
  not_mem_serase_self (dinsert_nodup h)

/-- `terminate_model` never touches the Launching Guard and only removes
entries from the Model Table. -/
theorem terminate_guard_table (ctx : Ctx) (st : WorkerState) (uid : String)
    (d : Bool) (pa : Option (List String)) :
    (terminate_model ctx st uid d pa).2.1.launchingGuard = st.launchingGuard ∧
    (∀ u, u ∈ (terminate_model ctx st uid d pa).2.1.modelUidToModel →
      u ∈ st.modelUidToModel) := by
  unfold terminate_model
  split
  · exact ⟨rfl, fun u hu => hu⟩
  · cases halook : alookup st.modelUidToAddr uid <;> cases d <;>
      exact ⟨rfl, fun u hu => mem_serase_sub hu⟩

/-- C2: every Launching Guard entry created at launch entry (by
`launch_builtin_model` or `launch_rank0_model`) is removed on every exit
path — success, failure, or cancellation — so the guard is unchanged across
each operation; and the mutual exclusion between Launching Guard and Model
Table is preserved by launch, rank-0 launch, and terminate. -/
theorem C2_guard_exclusive :
    (∀ ctx sched A E args st,
      (launch_builtin_model ctx sched A E args st).2.1.launchingGuard
        = st.launchingGuard) ∧
    (∀ sched A port st uid, uid ∉ st.launchingGuard →
      (launch_rank0_model sched A port st uid).2.launchingGuard
        = st.launchingGuard) ∧
    (∀ ctx sched A E args st, GuardTableExclusive st →
      GuardTableExclusive (launch_builtin_model ctx sched A E args st).2.1) ∧
    (∀ sched A port st uid, st.launchingGuard.Nodup → GuardTableExclusive st →
      GuardTableExclusive (launch_rank0_model sched A port st uid).2) ∧
    (∀ ctx st uid d pa, GuardTableExclusive st →
      GuardTableExclusive (terminate_model ctx st uid d pa).2.1) := by
  refine ⟨launch_guard_eq, ?_, ?_, ?_, ?_⟩
  · intro sched A port st uid hguard
    unfold launch_rank0_model
    cases hap : sched.appendMainPoolOk with
    | false => rw [if_pos (by rfl)]
    | true =>
      rw [if_neg (by simp)]
      cases hca : sched.createActorOk with
      | false =>
        rw [if_pos (by rfl)]
        exact serase_dinsert_of_not_mem hguard
      | true =>
        rw [if_neg (by simp)]
        exact serase_dinsert_of_not_mem hguard
  · intro ctx sched A E args st hinv
    intro u hu
    rw [launch_guard_eq] at hu
    unfold launch_builtin_model
    cases hpv : prevalidate ctx st args with
    | error e => exact hinv u hu
    | ok g =>
      have hng := prevalidate_ok_not_running hpv
      dsimp only
      rcases launchBody_tables ctx sched A E args g
          { st with launchingGuard := dinsert st.launchingGuard args.model_uid } with
        ⟨e, stB, logB, heq, hO⟩ | ⟨stB, logB, heq, hm, _, _⟩
      · rw [heq]
        dsimp only
        rw [hO.model]
        exact hinv u hu
      · rw [heq]
        dsimp only
        rw [hm]
        intro hmem
        rcases mem_dinsert.mp hmem with h1 | rfl
        · exact hinv u hu h1
        · exact hng.1 hu
  · intro sched A port st uid hnd hinv
    unfold launch_rank0_model
    cases hap : sched.appendMainPoolOk with
    | false => rw [if_pos (by rfl)]; exact hinv
    | true =>
      rw [if_neg (by simp)]
      cases hca : sched.createActorOk with
      | false =>
        rw [if_pos (by rfl)]
        intro u hu hmem
        have hu2 : u ∈ dinsert st.launchingGuard uid := mem_serase_sub hu
        rcases mem_dinsert.mp hu2 with h1 | rfl
        · exact hinv u h1 hmem
        · exact not_mem_serase_dinsert hnd hu
      | true =>
        rw [if_neg (by simp)]
        intro u hu hmem
        have hu2 : u ∈ dinsert st.launchingGuard uid := mem_serase_sub hu
        rcases mem_dinsert.mp hu2 with h1 | rfl
        · rcases mem_dinsert.mp hmem with h2 | rfl
          · exact hinv u h1 h2
          · exact not_mem_serase_dinsert hnd hu
        · exact not_mem_serase_dinsert hnd hu
  · intro ctx st uid d pa hinv
    intro u hu
    have hg := (terminate_guard_table ctx st uid d pa).1
    have ht := (terminate_guard_table ctx st uid d pa).2
    rw [hg] at hu
    intro hmem
    exact hinv u hu (ht u hmem)

/-- Witness for C2 at a concrete input: a rank-0 launch of a fresh uid on
an empty worker restores the (empty) Launching Guard on exit. -/
theorem C2_witness :
    (launch_rank0_model {} "a" 1 {} "m").2.launchingGuard
      = ({} : WorkerState).launchingGuard :=
  C2_guard_exclusive.2.1 {} "a" 1 {} "m" (by decide)

/-- C1 counterexample: the claim asserts that every exception during
launch steps 2-8 releases the devices allocated to the uid and removes
every sub-pool the launch created.  In the code the cleanup `except` only
wraps the steps after `_create_subpool` returns: when the primary
`append_sub_pool` fails (step 3) after `allocate_devices` recorded GPU 0,
the launch re-raises but GPU 0 stays allocated to the uid.  And when the
extra-pool `asyncio.gather` fails after one of its two `append_sub_pool`
tasks created the pool "e1", that address never enters
`all_subpool_addresses` (the `extend` is skipped), so the cleanup removes
only the primary pool and "e1" survives the failing launch. -/
theorem C1_counterexample :
    (launch_builtin_model { hostGpuCount := 1 } { appendMainPoolOk := false } "a" []
        { model_uid := "m", model_name := "x", n_gpu := some (.int 1) }
        { totalGpuDevices := [0] }).1 = .error .external ∧
    (launch_builtin_model { hostGpuCount := 1 } { appendMainPoolOk := false } "a" []
        { model_uid := "m", model_name := "x", n_gpu := some (.int 1) }
        { totalGpuDevices := [0] }).2.1.gpuToModelUid = [(0, "m")] ∧
    (launch_builtin_model { hostGpuCount := 2 }
        { needCreatePools := true, extraPoolOks := [true, false] } "a" ["e1", "e2"]
        { model_uid := "m", model_name := "x", n_gpu := some (.int 2) }
        { totalGpuDevices := [0, 1] }).1 = .error .external ∧
    (launch_builtin_model { hostGpuCount := 2 }
        { needCreatePools := true, extraPoolOks := [true, false] } "a" ["e1", "e2"]
        { model_uid := "m", model_name := "x", n_gpu := some (.int 2) }
        { totalGpuDevices := [0, 1] }).2.1.subPools = ["e1"] :=
  ⟨by decide, by decide, by decide, by decide⟩

/-- C1 (amended): for every launch that raises, the uid is absent from the
Model Table and the address map, and the Launching Guard entry is removed.
The sub-pools created by the launch are removed except for a leak drawn
from the extra addresses, which can only be nonempty when the extra-pool
`asyncio.gather` failed after some of its `append_sub_pool` tasks had
created their pools (those never enter `all_subpool_addresses`, so the
cleanup block cannot remove them); the device maps are additionally
scrubbed of the uid provided the failure did not occur in the primary
`append_sub_pool` call itself (the cleanup block only wraps the steps
after `_create_subpool`, so a failing append leaks the device allocation).
On success the uid is committed in the Model Table with the sub-pool
address recorded. -/
theorem C1_launch_failure_cleanup (ctx : Ctx) (sched : LaunchSchedule) (A : String)
    (E : List String) (args : LaunchArgs) (st : WorkerState)
    (hfreshA : A ∉ st.subPools)
    (hfreshE : ∀ a ∈ E, a ∉ st.subPools)
    (hnd : (A :: E).Nodup)
    (htable : args.model_uid ∉ st.modelUidToModel)
    (haddr : alookup st.modelUidToAddr args.model_uid = none)
    (hdev : DevClear st args.model_uid) :
    ((∃ e, (launch_builtin_model ctx sched A E args st).1 = .error e) →
      args.model_uid ∉ (launch_builtin_model ctx sched A E args st).2.1.modelUidToModel ∧
      alookup (launch_builtin_model ctx sched A E args st).2.1.modelUidToAddr
        args.model_uid = none ∧
      (launch_builtin_model ctx sched A E args st).2.1.launchingGuard
        = st.launchingGuard ∧
      (∃ leak, (launch_builtin_model ctx sched A E args st).2.1.subPools
          = st.subPools ++ leak ∧ leak.Sublist E ∧
        (sched.extraPoolOks.all id = true → leak = [])) ∧
      (sched.appendMainPoolOk = true →
        DevClear (launch_builtin_model ctx sched A E args st).2.1 args.model_uid)) ∧
    (∀ a, (launch_builtin_model ctx sched A E args st).1 = .ok a →
      a = A ∧
      args.model_uid ∈ (launch_builtin_model ctx sched A E args st).2.1.modelUidToModel ∧
      alookup (launch_builtin_model ctx sched A E args st).2.1.modelUidToAddr
        args.model_uid = some A ∧
      A ∈ (launch_builtin_model ctx sched A E args st).2.1.subPools) := by
  have hg := launch_guard_eq ctx sched A E args st
  unfold launch_builtin_model at hg ⊢
  cases hpv : prevalidate ctx st args with
  | error e =>
    refine ⟨fun _ => ⟨htable, haddr, rfl,
      ⟨[], by simp, List.nil_sublist E, fun _ => rfl⟩, fun _ => hdev⟩, ?_⟩
    intro a hok
    exact absurd hok (by simp)
  | ok g =>
    rw [hpv] at hg
    dsimp only at hg ⊢
    rcases launchBody_spec ctx sched A E args g
        { st with launchingGuard := dinsert st.launchingGuard args.model_uid }
        hfreshA hfreshE hnd with
      ⟨e, stB, heq, hO, hsub, hdevd⟩ | ⟨stB, heq, hm, hs, hst, ha, hc, hl, hgd, hmem⟩
    · rw [heq] at hg ⊢
      dsimp only at hg ⊢
      refine ⟨fun _ => ⟨?_, ?_, hg, hsub, ?_⟩, ?_⟩
      · rw [hO.model]
        exact htable
      · rw [hO.addr]
        exact haddr
      · intro hap
        rcases hdevd with hde | hdc | hfalse
        · exact devClear_of_eq hde hdev
        · exact hdc
        · rw [hap] at hfalse
          cases hfalse
      · intro a hok
        exact absurd hok (by simp)
    · rw [heq] at hg ⊢
      dsimp only at hg ⊢
      constructor
      · rintro ⟨e, he⟩
        exact absurd he (by simp)
      · intro a hok
        have haA : A = a := by
          simpa using hok
        refine ⟨haA.symm, ?_, ?_, ?_⟩
        · rw [hm]
          exact mem_dinsert_self _ _
        · rw [ha]
          exact alookup_ainsert_self _ _ _
        · exact hmem

/-- Witness for C1 (amended) at a concrete input: a launch whose
`model.load()` fails releases GPU 0, removes the created sub-pool and the
guard entry, and leaves the table without the uid. -/
theorem C1_witness :
    ((launch_builtin_model { hostGpuCount := 1 } { loadOk := false } "a" []
        { model_uid := "m", model_name := "x", n_gpu := some (.int 1) }
        { totalGpuDevices := [0] }).2.1.subPools = [] ∧
     "m" ∉ (launch_builtin_model { hostGpuCount := 1 } { loadOk := false } "a" []
        { model_uid := "m", model_name := "x", n_gpu := some (.int 1) }
        { totalGpuDevices := [0] }).2.1.modelUidToModel) := by
  have h := (C1_launch_failure_cleanup { hostGpuCount := 1 } { loadOk := false } "a" []
    { model_uid := "m", model_name := "x", n_gpu := some (.int 1) }
    { totalGpuDevices := [0] }
    (by decide) (by intro a ha; cases ha) (by decide) (by decide) (by decide)
    ⟨by decide, by decide, by decide⟩).1 ⟨.external, by decide⟩
  obtain ⟨leak, h1, _, h3⟩ := h.2.2.2.1
  rw [h3 rfl] at h1
  exact ⟨by simpa using h1, h.1⟩

/-! ### Claim theorems: launch pre-validation (C7) -/

/-- C7 counterexample: the claim says that when `gpu_idx` is set the launch
proceeds on the user-specified GPUs regardless of `n_gpu`'s value.  The code
instead validates `n_gpu` even when `gpu_idx` is set: with `gpu_idx = [0]`
and `n_gpu = 0` the launch raises the InvalidArg error (state unchanged),
while the identical call with the default `n_gpu = "auto"` commits on GPU 0.
Also `n_gpu = None` does not raise, contradicting "any other value raises". -/
theorem C7_counterexample :
    launch_builtin_model { hostGpuCount := 4 } {} "addr" []
        { model_uid := "m", model_name := "x", n_gpu := some (.int 0),
          gpu_idx := some (.one 0) }
        { totalGpuDevices := [0,1,2,3] } =
      (.error (.valueError "The parameter n_gpu must be greater than 0 and not greater than the number of GPUs"),
       { totalGpuDevices := [0,1,2,3] }, []) ∧
    (launch_builtin_model { hostGpuCount := 4 } {} "addr" []
        { model_uid := "m", model_name := "x", gpu_idx := some (.one 0) }
        { totalGpuDevices := [0,1,2,3] }).1 = .ok "addr" ∧
    prevalidateNGpu { hostGpuCount := 4 } none = .ok () := by
  exact ⟨by decide, by decide, rfl⟩

/-- C7 (amended): a scalar `gpu_idx` is coerced to a singleton list and,
when `gpu_idx` is set, `n_gpu` plays no role in device allocation
(`_create_subpool` ignores it); however a non-null `n_gpu` is still
validated even when `gpu_idx` is set: `n_gpu` must be null, an integer in
`[1, host_gpu_count]`, or the literal string "auto", and any other non-null
value raises InvalidArg before any side effect. -/
theorem C7_gpu_validation :
    (∀ i, coerceGpuIdx (some (.one i)) = coerceGpuIdx (some (.many [i]))) ∧
    (∀ (ctx : Ctx) (st : WorkerState) (args : LaunchArgs) (i : Nat),
      prevalidate ctx st { args with gpu_idx := some (.one i) } =
        prevalidate ctx st { args with gpu_idx := some (.many [i]) }) ∧
    (∀ ctx sched A st uid ty ng ng' idxs,
      create_subpool ctx sched A st uid ty ng (some idxs) =
        create_subpool ctx sched A st uid ty ng' (some idxs)) ∧
    (∀ ctx sched A E args st n, args.n_gpu = some (.int n) →
      n ≤ 0 ∨ (ctx.hostGpuCount : Int) < n →
      launch_builtin_model ctx sched A E args st =
        (.error (.valueError "The parameter n_gpu must be greater than 0 and not greater than the number of GPUs"),
         st, [])) ∧
    (∀ ctx sched A E args st s, args.n_gpu = some (.str s) → s ≠ "auto" →
      launch_builtin_model ctx sched A E args st =
        (.error (.valueError "Currently n_gpu only supports auto."), st, [])) ∧
    (∀ ctx, prevalidateNGpu ctx none = .ok ()) ∧
    (∀ ctx n, 0 < n → n ≤ (ctx.hostGpuCount : Int) →
      prevalidateNGpu ctx (some (.int n)) = .ok ()) ∧
    (∀ ctx, prevalidateNGpu ctx (some (.str "auto")) = .ok ()) := by
  refine ⟨fun i => rfl, fun ctx st args i => rfl, fun ctx sched A st uid ty ng ng' idxs => rfl,
    ?_, ?_, fun ctx => rfl, ?_, fun ctx => by simp [prevalidateNGpu]⟩
  · intro ctx sched A E args st n hn hbad
    apply launch_prevalidate_error
    apply prevalidate_ngpu_error
    rw [hn]
    simp only [prevalidateNGpu]
    rw [if_pos hbad]
  · intro ctx sched A E args st s hs hsauto
    apply launch_prevalidate_error
    apply prevalidate_ngpu_error
    rw [hs]
    simp only [prevalidateNGpu]
    rw [if_neg hsauto]
  · intro ctx n h1 h2
    simp only [prevalidateNGpu]
    rw [if_neg (by omega)]

/-- Witness for C7 (amended) at a concrete input: `gpu_idx = [1]` with the
invalid `n_gpu = 7` on a 2-GPU host raises InvalidArg, state unchanged. -/
theorem C7_witness :
    launch_builtin_model { hostGpuCount := 2 } {} "addr" []
        { model_uid := "m", n_gpu := some (.int 7), gpu_idx := some (.many [1]) }
        { totalGpuDevices := [0,1] } =
      (.error (.valueError "The parameter n_gpu must be greater than 0 and not greater than the number of GPUs"),
       { totalGpuDevices := [0,1] }, []) := by
  exact C7_gpu_validation.2.2.2.1 { hostGpuCount := 2 } {} "addr" []
    { model_uid := "m", n_gpu := some (.int 7), gpu_idx := some (.many [1]) }
    { totalGpuDevices := [0,1] } 7 rfl (by decide)

/-! ### Claim theorems: rank-0 fast path (C10) -/

/-- After a fresh-address `ainsert`, the linear scan by address finds the
newly inserted binding. -/
theorem find_ainsert_addr {m : List (String × String)} {k v : String}
    (hfresh : ∀ p ∈ m, p.2 ≠ v) :
    (ainsert m k v).find? (fun p => decide (p.2 = v)) = some (k, v) := by
  induction m with
  | nil => simp [ainsert]
  | cons p m ih =>
    by_cases hp : p.1 = k
    · simp [ainsert, hp]
    · have hpv : p.2 ≠ v := hfresh p (List.mem_cons_self _ _)
      simp only [ainsert, if_neg hp]
      rw [List.find?_cons_of_neg _ (by simpa using hpv)]
      exact ih (fun q hq => hfresh q (List.mem_cons_of_mem _ hq))

/-- C10: a model registered through `launch_rank0_model` is stored with only
a model ref and a sub-pool address — no spec, no status record, no recovery
counter, no launch args — so it never appears in `list_models`, and when its
sub-pool dies the recover callback finds no stored launch args and performs
no re-launch: it only removes the dead pool from the pool set. -/
theorem C10_rank0_minimal (sched : LaunchSchedule) (A : String) (port : Nat)
    (st : WorkerState) (uid : String)
    (hap : sched.appendMainPoolOk = true)
    (hca : sched.createActorOk = true)
    (hspec : uid ∉ st.modelUidToModelSpec)
    (hstatus : alookup st.modelUidToModelStatus uid = none)
    (hcount : alookup st.modelUidToRecoverCount uid = none)
    (hargs : alookup st.modelUidToLaunchArgs uid = none)
    (haddrfresh : ∀ p ∈ st.modelUidToAddr, p.2 ≠ A) :
    (launch_rank0_model sched A port st uid).1 = .ok (A, port) ∧
    uid ∈ (launch_rank0_model sched A port st uid).2.modelUidToModel ∧
    alookup (launch_rank0_model sched A port st uid).2.modelUidToAddr uid = some A ∧
    uid ∉ list_models (launch_rank0_model sched A port st uid).2 ∧
    alookup (launch_rank0_model sched A port st uid).2.modelUidToModelStatus uid = none ∧
    alookup (launch_rank0_model sched A port st uid).2.modelUidToRecoverCount uid = none ∧
    alookup (launch_rank0_model sched A port st uid).2.modelUidToLaunchArgs uid = none ∧
    (∀ ctx sched2 A2 E2,
      recover_sub_pool ctx sched2 A2 E2 (launch_rank0_model sched A port st uid).2 A =
        ({ (launch_rank0_model sched A port st uid).2 with
            subPools := serase (launch_rank0_model sched A port st uid).2.subPools A },
         false, [])) := by
  unfold launch_rank0_model
  rw [hap, hca]
  rw [if_neg (by simp), if_neg (by simp)]
  dsimp only
  refine ⟨rfl, mem_dinsert_self _ _, alookup_ainsert_self _ _ _, hspec, hstatus,
    hcount, hargs, ?_⟩
  intro ctx sched2 A2 E2
  unfold recover_sub_pool
  dsimp only
  rw [find_ainsert_addr haddrfresh]
  dsimp only
  rw [hargs]

/-- Witness for C10 at a concrete input. -/
theorem C10_witness :
    (launch_rank0_model {} "a" 7 {} "m-rank0").1 = .ok ("a", 7) ∧
    "m-rank0" ∉ list_models (launch_rank0_model {} "a" 7 {} "m-rank0").2 := by
  have h := C10_rank0_minimal {} "a" 7 {} "m-rank0" rfl rfl (by decide) rfl rfl rfl
    (by intro p hp; cases hp)
  exact ⟨h.1, h.2.2.2.1⟩

theorem recover_step_pos (m : Int) (hm : 0 < m) :
    (recover_sub_pool {} {} "a" [] (committedCpu "r" (some m)) "a").1
      = committedCpu "r" (some (m - 1)) ∧
    (recover_sub_pool {} {} "a" [] (committedCpu "r" (some m)) "a").2.1 = true := by
  constructor <;>
    simp [recover_sub_pool, committedCpu, cpuArgs, terminate_model, recover_model,
      launch_builtin_model, launchBody, prevalidate, prevalidateNGpu, prevalidatePeft,
      prevalidateModelPath, check_model_is_valid, create_subpool, subpoolAlloc,
      innerOutcome, commitLaunch, launchFailureCleanup, release_devices,
      alookup, ainsert, aerase, asetdefault, serase, dinsert, eraseAll,
      coerceGpuIdx, terminate_origin_uid, parse_replica_model_uid, hm, Option.join]

theorem recover_step_zero (m : Int) (hm : ¬ 0 < m) :
    (recover_sub_pool {} {} "a" [] (committedCpu "r" (some m)) "a").1 = deadCpu ∧
    (recover_sub_pool {} {} "a" [] (committedCpu "r" (some m)) "a").2.1 = false := by
  constructor <;>
    simp [recover_sub_pool, committedCpu, cpuArgs, deadCpu, terminate_model,
      release_devices, alookup, aerase, serase, eraseAll, terminate_origin_uid,
      parse_replica_model_uid, hm, Option.join]

theorem recover_step_none :
    (recover_sub_pool {} {} "a" [] (committedCpu "r" none) "a").1
      = committedCpu "r" none ∧
    (recover_sub_pool {} {} "a" [] (committedCpu "r" none) "a").2.1 = true := by
  constructor <;>
    simp [recover_sub_pool, committedCpu, cpuArgs, terminate_model, recover_model,
      launch_builtin_model, launchBody, prevalidate, prevalidateNGpu, prevalidatePeft,
      prevalidateModelPath, check_model_is_valid, create_subpool, subpoolAlloc,
      innerOutcome, commitLaunch, launchFailureCleanup, release_devices,
      alookup, ainsert, aerase, asetdefault, serase, dinsert, eraseAll,
      coerceGpuIdx, terminate_origin_uid, parse_replica_model_uid, Option.join]

theorem deathsSim_dead (k : Nat) : deathsSim "r" k deadCpu = (deadCpu, 0) := by
  cases k <;> simp [deathsSim, deadCpu, alookup]

theorem deathsSim_bounded (k N : Nat) :
    (deathsSim "r" k (committedCpu "r" (some (N : Int)))).2 = min k N := by
  induction k generalizing N with
  | zero => simp [deathsSim]
  | succ k ih =>
    have haddr : alookup (committedCpu "r" (some (N : Int))).modelUidToAddr "r"
        = some "a" := by simp [committedCpu, alookup]
    rw [deathsSim, haddr]
    dsimp only
    cases N with
    | zero =>
      have hz := recover_step_zero ((0 : Nat) : Int) (by simp)
      rw [hz.1, hz.2, deathsSim_dead]
      simp
    | succ n =>
      have hp := recover_step_pos ((n + 1 : Nat) : Int) (by positivity)
      have hcast : ((n + 1 : Nat) : Int) - 1 = (n : Int) := by push_cast; ring
      rw [hcast] at hp
      rw [hp.1, hp.2, ih n]
      simp only [if_true]
      omega

theorem deathsSim_unlimited (k : Nat) :
    (deathsSim "r" k (committedCpu "r" none)).2 = k := by
  induction k with
  | zero => simp [deathsSim]
  | succ k ih =>
    have haddr : alookup (committedCpu "r" none).modelUidToAddr "r" = some "a" := by
      simp [committedCpu, alookup]
    rw [deathsSim, haddr]
    dsimp only
    rw [recover_step_none.1, recover_step_none.2, ih]
    simp [Nat.add_comm]

/-- General decrement: when the dead sub-pool address belongs to a uid with
stored launch args and a positive recovery counter, the callback attempts a
re-launch and the counter ends exactly one lower. -/
theorem recover_sub_pool_decrements (ctx : Ctx) (sched : LaunchSchedule)
    (A a0 : String) (E : List String) (st : WorkerState) (address uid : String)
    (args : LaunchArgs) (m : Int)
    (hfind : st.modelUidToAddr.find? (fun p => decide (p.2 = address))
      = some (uid, a0))
    (hargs : alookup st.modelUidToLaunchArgs uid = some args)
    (hcnt : alookup st.modelUidToRecoverCount uid = some (some m))
    (hm : 0 < m) :
    (recover_sub_pool ctx sched A E st address).2.1 = true ∧
    alookup (recover_sub_pool ctx sched A E st address).1.modelUidToRecoverCount uid
      = some (some (m - 1)) := by
  unfold recover_sub_pool
  dsimp only
  rw [hfind]
  dsimp only
  rw [hargs]
  dsimp only
  rw [hcnt]
  rw [show (Option.join (some (some m)) : Option Int) = some m from rfl]
  dsimp only
  rw [if_pos hm]
  refine ⟨rfl, ?_⟩
  unfold recover_model
  exact launch_count_preserved _ _ _ _ _ _ _ _ (alookup_ainsert_self _ _ _)

/-- Zero stops recovery: with a recovery counter that is not positive, no
re-launch is attempted. -/
theorem recover_sub_pool_stops (ctx : Ctx) (sched : LaunchSchedule)
    (A a0 : String) (E : List String) (st : WorkerState) (address uid : String)
    (args : LaunchArgs) (m : Int)
    (hfind : st.modelUidToAddr.find? (fun p => decide (p.2 = address))
      = some (uid, a0))
    (hargs : alookup st.modelUidToLaunchArgs uid = some args)
    (hcnt : alookup st.modelUidToRecoverCount uid = some (some m))
    (hm : ¬ 0 < m) :
    (recover_sub_pool ctx sched A E st address).2.1 = false := by
  unfold recover_sub_pool
  dsimp only
  rw [hfind]
  dsimp only
  rw [hargs]
  dsimp only
  rw [hcnt]
  rw [show (Option.join (some (some m)) : Option Int) = some m from rfl]
  dsimp only
  rw [if_neg hm]

/-- A null counter always triggers recovery. -/
theorem recover_sub_pool_null (ctx : Ctx) (sched : LaunchSchedule)
    (A a0 : String) (E : List String) (st : WorkerState) (address uid : String)
    (args : LaunchArgs)
    (hfind : st.modelUidToAddr.find? (fun p => decide (p.2 = address))
      = some (uid, a0))
    (hargs : alookup st.modelUidToLaunchArgs uid = some args)
    (hcnt : (alookup st.modelUidToRecoverCount uid).join = none) :
    (recover_sub_pool ctx sched A E st address).2.1 = true := by
  unfold recover_sub_pool
  dsimp only
  rw [hfind]
  dsimp only
  rw [hargs]
  dsimp only
  rw [hcnt]

/-- C3: a positive recovery counter is decremented by exactly one on each
sub-pool death, with a re-launch attempted; a counter that is not positive
stops recovery; a null counter triggers recovery on every death; and over the
repeated-death simulation a committed CPU model with limit N is re-launched
exactly min k N times across k deaths, while a null limit yields k re-launches. -/
theorem C3_recovery_bound :
    (∀ (ctx : Ctx) (sched : LaunchSchedule) (A a0 : String) (E : List String)
      (st : WorkerState) (address uid : String) (args : LaunchArgs) (m : Int),
      st.modelUidToAddr.find? (fun p => decide (p.2 = address)) = some (uid, a0) →
      alookup st.modelUidToLaunchArgs uid = some args →
      alookup st.modelUidToRecoverCount uid = some (some m) →
      0 < m →
      (recover_sub_pool ctx sched A E st address).2.1 = true ∧
      alookup (recover_sub_pool ctx sched A E st address).1.modelUidToRecoverCount uid
        = some (some (m - 1))) ∧
    (∀ (ctx : Ctx) (sched : LaunchSchedule) (A a0 : String) (E : List String)
      (st : WorkerState) (address uid : String) (args : LaunchArgs) (m : Int),
      st.modelUidToAddr.find? (fun p => decide (p.2 = address)) = some (uid, a0) →
      alookup st.modelUidToLaunchArgs uid = some args →
      alookup st.modelUidToRecoverCount uid = some (some m) →
      ¬ 0 < m →
      (recover_sub_pool ctx sched A E st address).2.1 = false) ∧
    (∀ (ctx : Ctx) (sched : LaunchSchedule) (A a0 : String) (E : List String)
      (st : WorkerState) (address uid : String) (args : LaunchArgs),
      st.modelUidToAddr.find? (fun p => decide (p.2 = address)) = some (uid, a0) →
      alookup st.modelUidToLaunchArgs uid = some args →
      (alookup st.modelUidToRecoverCount uid).join = none →
      (recover_sub_pool ctx sched A E st address).2.1 = true) ∧
    (∀ N k : Nat,
      (deathsSim "r" k (committedCpu "r" (some (N : Int)))).2 = min k N) ∧
    (∀ k : Nat, (deathsSim "r" k (committedCpu "r" none)).2 = k) :=
  ⟨fun ctx sched A a0 E st address uid args m hf ha hc hm =>
      recover_sub_pool_decrements ctx sched A a0 E st address uid args m hf ha hc hm,
    fun ctx sched A a0 E st address uid args m hf ha hc hm =>
      recover_sub_pool_stops ctx sched A a0 E st address uid args m hf ha hc hm,
    fun ctx sched A a0 E st address uid args hf ha hc =>
      recover_sub_pool_null ctx sched A a0 E st address uid args hf ha hc,
    fun N k => deathsSim_bounded k N,
    deathsSim_unlimited⟩

/-- A concrete run of the decrement conjunct: a committed CPU model with
counter 2 dies once, a re-launch is attempted, and the counter drops to 1. -/
theorem C3_witness :
    (recover_sub_pool {} {} "a" [] (committedCpu "r" (some 2)) "a").2.1 = true ∧
    alookup
      ((recover_sub_pool {} {} "a" [] (committedCpu "r" (some 2)) "a").1.modelUidToRecoverCount)
      "r" = some (some (2 - 1)) :=
  C3_recovery_bound.1 {} {} "a" "a" [] (committedCpu "r" (some 2)) "a" "r"
    (cpuArgs "r") 2 (by decide) (by decide) (by decide) (by decide)

end Worker
